import Mathlib

/-!
Verification development for the data-quality scoring and improvement engine
of the energy-consumption ETL repository.

The two source modules embedded here are
`airflow_project/utils/quality_checks.py` (snapshot 20251005170119) and
`airflow_project/utils/data_quality_improver.py` (snapshot 20251005170413).

Modelling conventions:
* A pandas scalar is `Val`: a string, a numeric value (ℚ, covering the int64
  and float64 scalars that occur in the data; floats are modelled as exact
  rationals), or the missing marker (`None` / `NaN`).
* A `DataFrame` is a column-name list plus a list of rows, each row a list of
  `Val` positionally aligned with the column names.
* Pandas division by zero on counts (0/0) yields `NaN`; score fields that can
  be `NaN` are therefore modelled as `Option ℚ` with `none` standing for `NaN`.
* `round(x, 2)` (Python and numpy agree) is round-half-to-even on 2 decimals.
* `datetime.now()` / `pd.Timestamp.now()` are modelled by passing the clock
  value as an explicit argument.
-/

/-- A scalar cell value of a dataset: string, number, or missing (`None`/`NaN`). -/
inductive Val where
  | str (s : String)
  | num (q : ℚ)
  | missing
deriving DecidableEq

/-- A single-quote character, used to build Python-style log strings. -/
def sQ : String := String.singleton (Char.ofNat 39)

/-- `True` exactly on the missing marker. -/
def isMissing : Val → Bool
  | Val.missing => true
  | _ => false

/-- Digits of a natural-number string to its value (assumes all digits). -/
def digitsVal (s : String) : Nat :=
  s.foldl (fun acc c => acc * 10 + (c.toNat - 48)) 0

/-- All characters are decimal digits. -/
def allDigits (s : String) : Bool :=
  s.toList.all Char.isDigit

/-- Parse an unsigned decimal mantissa, `"12"`, `"12.5"`, `".5"`, `"12."`.
Models the mantissa part accepted by `pandas.to_numeric` / Python `float`. -/
def parseMantissa (s : String) : Option ℚ :=
  match s.splitOn "." with
  | [a] =>
      if a ≠ "" ∧ allDigits a then some (digitsVal a) else none
  | [a, b] =>
      if (a ≠ "" ∨ b ≠ "") ∧ allDigits a ∧ allDigits b then
        some ((digitsVal a : ℚ) + (digitsVal b : ℚ) / (10 : ℚ) ^ b.length)
      else none
  | _ => none

/-- Parse an optional sign followed by a decimal mantissa. -/
def parseSignedMantissa (s : String) : Option ℚ :=
  if s.startsWith "-" then (parseMantissa (s.drop 1)).map (fun q => -q)
  else if s.startsWith "+" then parseMantissa (s.drop 1)
  else parseMantissa s

/-- Parse an optionally signed integer (for exponents). -/
def parseSignedInt (s : String) : Option ℤ :=
  if s.startsWith "-" then
    (if s.drop 1 ≠ "" ∧ allDigits (s.drop 1) then some (-(digitsVal (s.drop 1) : ℤ)) else none)
  else if s.startsWith "+" then
    (if s.drop 1 ≠ "" ∧ allDigits (s.drop 1) then some ((digitsVal (s.drop 1) : ℤ)) else none)
  else
    (if s ≠ "" ∧ allDigits s then some ((digitsVal s : ℤ)) else none)

/-- Numeric parsing of a string, as performed by `pandas.to_numeric` on one
value: surrounding whitespace stripped, optional sign, decimal mantissa,
optional exponent.  Unparseable strings give `none` (coerced to `NaN` by the
callers).  (`inf` handling is not modelled; it does not occur in this data.) -/
def parseRat (s0 : String) : Option ℚ :=
  let s := (s0.trim.toList.map (fun c => if c = 'E' then 'e' else c)).asString
  match s.splitOn "e" with
  | [m] => parseSignedMantissa m
  | [m, ex] =>
      match parseSignedMantissa m, parseSignedInt ex with
      | some mv, some ev => some (mv * (10 : ℚ) ^ ev)
      | _, _ => none
  | _ => none

/-- Decimal rendering of a non-integral rational, used to model Python
`str()` on a float.  Exact for finite decimal fractions (the only floats the
pipeline produces); rationals with an infinite decimal expansion are cut off
after 17 digits, mirroring the precision limit of float64 repr. -/
def decFracDigits : Nat → Nat → Nat → List Char
  | 0, _, _ => []
  | _ + 1, _, 0 => []
  | fuel + 1, den, rem =>
      let d := rem * 10 / den
      Char.ofNat (48 + d) :: decFracDigits fuel den (rem * 10 % den)

/-- Python `str()` of a numeric value: integers print without a decimal
point (int64 scalars), non-integral rationals as sign, integer part, `.`,
fraction digits. -/
def numToStr (q : ℚ) : String :=
  if q.den = 1 then toString q.num
  else
    let sign := if q < 0 then "-" else ""
    let n := q.num.natAbs
    let d := q.den
    sign ++ toString (n / d) ++ "." ++ (decFracDigits 17 d (n % d)).asString

/-- Python `str()` of a cell value: strings unchanged, numbers via `numToStr`,
and the missing marker prints as `"nan"` (this is how `astype(str)` turns
`NaN` into the literal string `nan`). -/
def valToStr : Val → String
  | Val.str s => s
  | Val.num q => numToStr q
  | Val.missing => "nan"

/-- Python `str.title()`: first letter of every alphabetic run upper-cased,
the rest of the run lower-cased (ASCII). -/
def titleCaseAux : List Char → Bool → List Char
  | [], _ => []
  | c :: cs, prevAlpha =>
      (if c.isAlpha then (if prevAlpha then c.toLower else c.toUpper) else c)
        :: titleCaseAux cs c.isAlpha

/-- Python `str.title()` on a string. -/
def titleCase (s : String) : String :=
  (titleCaseAux s.toList false).asString

/-- Round-half-to-even to an integer (the tie rule shared by Python `round`
and `numpy.round`). -/
def roundHalfEven (x : ℚ) : ℤ :=
  if x - (⌊x⌋ : ℚ) < 1 / 2 then ⌊x⌋
  else if 1 / 2 < x - (⌊x⌋ : ℚ) then ⌊x⌋ + 1
  else if ⌊x⌋ % 2 = 0 then ⌊x⌋ else ⌊x⌋ + 1

/-- `round(x, 2)`: round to 2 decimal places, ties to even. -/
def round2 (x : ℚ) : ℚ := (roundHalfEven (x * 100) : ℚ) / 100

/-- A dataset: named columns and rows of cell values, each row positionally
aligned with `cols`. -/
structure DataFrame where
  cols : List String
  rows : List (List Val)
deriving DecidableEq

/-- Rows all have exactly one cell per column name. -/
def DataFrame.WF (df : DataFrame) : Prop :=
  ∀ r ∈ df.rows, r.length = df.cols.length

instance (df : DataFrame) : Decidable df.WF := by
  unfold DataFrame.WF; infer_instance

/-- Index of the first column with the given name (pandas label lookup). -/
def idxOf (c : String) : List String → Option Nat
  | [] => none
  | n :: ns => if n = c then some 0 else (idxOf c ns).map (· + 1)

/-- Extract a column by name; absent names give the empty series (the checks
guard column presence before using this). -/
def DataFrame.col (df : DataFrame) (c : String) : List Val :=
  match idxOf c df.cols with
  | some i => df.rows.map (fun r => r.getD i Val.missing)
  | none => []

/-- Overwrite a column (by name) with the given values, row by row
(`df[c] = series`).  Unknown names leave the frame unchanged. -/
def setCol (df : DataFrame) (c : String) (vs : List Val) : DataFrame :=
  match idxOf c df.cols with
  | some i => ⟨df.cols, df.rows.zipWith (fun r v => r.set i v) vs⟩
  | none => df

/-- Keep the elements whose key has not occurred before (`keep='first'`
duplicate filtering / `Series.unique` order). `seen` carries keys already
encountered. -/
def dedupeFirst {α κ : Type} [DecidableEq κ] (key : α → κ) : List α → List κ → List α
  | [], _ => []
  | a :: as, seen =>
      if key a ∈ seen then dedupeFirst key as (key a :: seen)
      else a :: dedupeFirst key as (key a :: seen)

/-- Number of elements whose key occurred earlier in the list
(`duplicated(keep='first').sum()`). -/
def dupCount {α κ : Type} [DecidableEq κ] (key : α → κ) : List α → List κ → Nat
  | [], _ => 0
  | a :: as, seen =>
      (if key a ∈ seen then 1 else 0) + dupCount key as (key a :: seen)

/-- Row key used by duplicate detection: the whole row when `subset` is
`None`, otherwise the values at the subset columns. -/
def rowKey (df : DataFrame) (subset : Option (List String)) (r : List Val) : List Val :=
  match subset with
  | none => r
  | some cs => cs.map (fun c =>
      match idxOf c df.cols with
      | some i => r.getD i Val.missing
      | none => Val.missing)

/-! ## Quality Evaluator (`quality_checks.py`) -/

/-- Result of a per-column check: either the `{'error': msg}` dictionary the
source returns, or the report proper. -/
inductive CheckResult (α : Type) where
  | err (msg : String)
  | ok (report : α)
deriving DecidableEq

/-- One entry of the completeness report.  `missing_percentage` and
`completeness_score` are `NaN` (`none`) on a zero-row dataset, where pandas
evaluates `0 / 0`. -/
structure CompletenessEntry where
  missing_count : Nat
  missing_percentage : Option ℚ
  complete_count : Nat
  completeness_score : Option ℚ
deriving DecidableEq

/-- `check_completeness(df, columns=None)`: per-column missing statistics. -/
def check_completeness (df : DataFrame) (columns : Option (List String)) :
    List (String × CompletenessEntry) :=
  let cols := columns.getD df.cols
  let total := df.rows.length
  cols.map (fun c =>
    let mc := (df.col c).countP isMissing
    let pct : Option ℚ :=
      if total = 0 then none else some (round2 ((mc : ℚ) / (total : ℚ) * 100))
    (c, { missing_count := mc
          missing_percentage := pct
          complete_count := total - mc
          completeness_score := pct.map (fun p => 100 - p) }))

/-- The duplicates report.  The two percentage fields are `NaN` (`none`) on a
zero-row dataset (numpy evaluates `0 / 0` with a warning, not an exception). -/
structure DuplicatesReport where
  total_rows : Nat
  duplicate_count : Nat
  duplicate_percentage : Option ℚ
  unique_rows : Nat
  uniqueness_score : Option ℚ
deriving DecidableEq

/-- `check_duplicates(df, subset=None)`: `keep='first'` duplicate counting
over the subset key (whole row when `subset` is `None`). -/
def check_duplicates (df : DataFrame) (subset : Option (List String)) : DuplicatesReport :=
  let total := df.rows.length
  let dups := dupCount (rowKey df subset) df.rows []
  { total_rows := total
    duplicate_count := dups
    duplicate_percentage :=
      if total = 0 then none else some (round2 ((dups : ℚ) / (total : ℚ) * 100))
    unique_rows := total - dups
    uniqueness_score :=
      if total = 0 then none
      else some (round2 (((total : ℚ) - (dups : ℚ)) / (total : ℚ) * 100)) }

/-- Runtime type name of a non-missing cell, as printed by
`str(type(v))`.  Numeric scalars are modelled as floats. -/
def typeKindName : Val → String
  | Val.str _ => "<class " ++ sQ ++ "str" ++ sQ ++ ">"
  | _ => "<class " ++ sQ ++ "float" ++ sQ ++ ">"

/-- `True` when `pd.to_numeric` can convert the value (numbers pass through,
strings must parse; the missing marker is excluded beforehand by `dropna`). -/
def numericConvertible : Val → Bool
  | Val.num _ => true
  | Val.str s => (parseRat s).isSome
  | Val.missing => false

/-- The format-consistency report of one column. -/
structure FormatReport where
  total_non_null : Nat
  data_types : List (String × Nat)
  numeric_convertible : Nat
  format_consistency_score : ℚ
deriving DecidableEq

/-- `check_format_consistency(df, column)`: over the non-missing values,
a histogram of runtime types (`value_counts`: by descending count, ties in
first-occurrence order) and the fraction that converts to numeric. -/
def check_format_consistency (df : DataFrame) (column : String) : CheckResult FormatReport :=
  if column ∈ df.cols then
    let series := (df.col column).filter (fun v => !isMissing v)
    if series.isEmpty then CheckResult.err "No data to check"
    else
      let names := series.map typeKindName
      let hist := (dedupeFirst id names []).map (fun k => (k, names.count k))
      let nconv := series.countP numericConvertible
      CheckResult.ok
        { total_non_null := series.length
          data_types := hist.mergeSort (fun a b => b.2 ≤ a.2)
          numeric_convertible := nconv
          format_consistency_score := round2 ((nconv : ℚ) / (series.length : ℚ) * 100) }
  else CheckResult.err ("Column " ++ column ++ " not found")

/-- Membership test of a cell value in a list of valid code strings
(`Series.isin`): only string cells can match string codes. -/
def isinCodes (codes : List String) : Val → Bool
  | Val.str s => codes.contains s
  | _ => false

/-- The codification-consistency report of one column. -/
structure CodifReport where
  total_values : Nat
  unique_values : Nat
  valid_codes_count : Nat
  invalid_codes_count : Nat
  invalid_values : List Val
  codification_score : ℚ
deriving DecidableEq

/-- `check_codification_consistency(df, column, valid_codes=None)`: over the
non-missing values, count values belonging to the valid-code list (falsy
`valid_codes`, i.e. `None` or an empty list, falls back to the
numeric-parseable test) and list the invalid distinct values. -/
def check_codification_consistency (df : DataFrame) (column : String)
    (valid_codes : Option (List String)) : CheckResult CodifReport :=
  if column ∈ df.cols then
    let series := (df.col column).filter (fun v => !isMissing v)
    if series.isEmpty then CheckResult.err "No data to check"
    else
      let uniques := dedupeFirst id series []
      let validCount :=
        match valid_codes with
        | some (c :: cs) => series.countP (isinCodes (c :: cs))
        | _ => series.countP numericConvertible
      let invalids :=
        match valid_codes with
        | some (c :: cs) => uniques.filter (fun v => !isinCodes (c :: cs) v)
        | _ => dedupeFirst id (series.filter (fun v => !numericConvertible v)) []
      CheckResult.ok
        { total_values := series.length
          unique_values := uniques.length
          valid_codes_count := validCount
          invalid_codes_count := series.length - validCount
          invalid_values := invalids
          codification_score := round2 ((validCount : ℚ) / (series.length : ℚ) * 100) }
  else CheckResult.err ("Column " ++ column ++ " not found")

/-- `np.mean` over a list of possibly-`NaN` floats: `NaN` as soon as one
entry is `NaN` (used for the completeness scores, accessed without default). -/
def npMeanOpt (l : List (Option ℚ)) : Option ℚ :=
  if l.all Option.isSome then
    some ((l.filterMap id).sum / ((l.filterMap id).length : ℚ))
  else none

/-- `report.get('format_consistency_score', 0)`: error reports lack the key
and contribute `0`. -/
def formatScore0 : CheckResult FormatReport → ℚ
  | CheckResult.ok r => r.format_consistency_score
  | CheckResult.err _ => 0

/-- `report.get('codification_score', 0)`: error reports contribute `0`. -/
def codifScore0 : CheckResult CodifReport → ℚ
  | CheckResult.ok r => r.codification_score
  | CheckResult.err _ => 0

/-- `get_quality_level(score)`: the fixed tier step function.  A `NaN`
argument (`none`) fails every `>=` comparison and lands on `'Very Poor'`. -/
def get_quality_level (score : Option ℚ) : String :=
  match score with
  | some s =>
      if 90 ≤ s then "Excellent"
      else if 80 ≤ s then "Good"
      else if 70 ≤ s then "Fair"
      else if 60 ≤ s then "Poor"
      else "Very Poor"
  | none => "Very Poor"

/-- The aggregate quality score block. -/
structure QualityScore where
  completeness_score : Option ℚ
  uniqueness_score : Option ℚ
  format_score : ℚ
  codification_score : ℚ
  overall_quality_score : Option ℚ
  quality_level : String
deriving DecidableEq

/-- `calculate_data_quality_score`: average each dimension (`0` for an empty
sub-report map), combine with weights 0.3 / 0.25 / 0.25 / 0.2, round the
published fields to 2 decimals, and derive the tier from the unrounded
overall score. -/
def calculate_data_quality_score
    (completeness_report : List (String × CompletenessEntry))
    (duplicates_report : DuplicatesReport)
    (format_reports : List (String × CheckResult FormatReport))
    (codification_reports : List (String × CheckResult CodifReport)) : QualityScore :=
  let cScores := completeness_report.map (fun p => p.2.completeness_score)
  let avgC : Option ℚ := if cScores.isEmpty then some 0 else npMeanOpt cScores
  let u : Option ℚ := duplicates_report.uniqueness_score
  let fScores := format_reports.map (fun p => formatScore0 p.2)
  let avgF : ℚ := if fScores.isEmpty then 0 else fScores.sum / (fScores.length : ℚ)
  let kScores := codification_reports.map (fun p => codifScore0 p.2)
  let avgK : ℚ := if kScores.isEmpty then 0 else kScores.sum / (kScores.length : ℚ)
  let overall : Option ℚ :=
    match avgC, u with
    | some c, some uq => some (c * (3 / 10) + uq * (25 / 100) + avgF * (25 / 100) + avgK * (20 / 100))
    | _, _ => none
  { completeness_score := avgC.map round2
    uniqueness_score := u.map round2
    format_score := round2 avgF
    codification_score := round2 avgK
    overall_quality_score := overall.map round2
    quality_level := get_quality_level overall }

/-- Dataset snapshot data of a quality report. -/
structure DatasetInfo where
  total_rows : Nat
  total_columns : Nat
  columns : List String
deriving DecidableEq

/-- The full quality report returned by `generate_quality_report`. -/
structure QualityReport where
  source_name : String
  timestamp : String
  dataset_info : DatasetInfo
  completeness : List (String × CompletenessEntry)
  duplicates : DuplicatesReport
  format_consistency : List (String × CheckResult FormatReport)
  codification_consistency : List (String × CheckResult CodifReport)
  quality_score : QualityScore
deriving DecidableEq

/-- Pandas dtype inference for a column as far as the report needs it:
a zero-row frame gives `object`; otherwise all-integral numerics give
`int64`, numerics possibly with missing give `float64`, anything containing
a string gives `object`. -/
def DataFrame.dtypeOf (df : DataFrame) (c : String) : String :=
  if df.rows.isEmpty then "object"
  else
    let colv := df.col c
    if colv.all (fun v => match v with | Val.num q => q.den = 1 | _ => false) then "int64"
    else if colv.all (fun v => match v with | Val.num _ => true | Val.missing => true | _ => false) then "float64"
    else "object"

/-- `generate_quality_report(df, source_name, output_path=None)`.  The
`datetime.now().isoformat()` timestamp is passed in as `now`; report
persistence (`output_path`) is I/O outside the model. -/
def generate_quality_report (df : DataFrame) (source_name : String) (now : String) :
    QualityReport :=
  let completeness := check_completeness df none
  let duplicates := check_duplicates df none
  let format_reports := df.cols.filterMap (fun c =>
    if df.dtypeOf c = "int64" ∨ df.dtypeOf c = "float64"
        ∨ c ∈ ["CSP", "ID_CSP", "NB_KW_Jour"] then
      some (c, check_format_consistency df c)
    else none)
  let codification_reports :=
    if "CSP" ∈ df.cols then
      [("CSP", check_codification_consistency df "CSP" (some ["1", "2", "3", "4"]))]
    else []
  { source_name := source_name
    timestamp := now
    dataset_info :=
      { total_rows := df.rows.length
        total_columns := df.cols.length
        columns := df.cols }
    completeness := completeness
    duplicates := duplicates
    format_consistency := format_reports
    codification_consistency := codification_reports
    quality_score :=
      calculate_data_quality_score completeness duplicates format_reports codification_reports }

/-! ## Quality Improver (`data_quality_improver.py`) -/

/-- One improvement-log entry.  The source also stores
`pd.Timestamp.now()`; the wall-clock value is environment input and is not
part of the model (compare `generate_quality_report`, where the timestamp is
made explicit because a claim is about it). -/
structure LogEntry where
  action : String
  details : String
deriving DecidableEq

/-- Run the per-item body of one improver method over its configuration
items, threading the dataset and appending each item's log entries
(`self.log_improvement` appends to `self.improvement_log`). -/
def foldSteps {α : Type} (step : DataFrame → α → DataFrame × List LogEntry) :
    List α → DataFrame × List LogEntry → DataFrame × List LogEntry
  | [], s => s
  | a :: as, s =>
      let r := step s.1 a
      foldSteps step as (r.1, s.2 ++ r.2)

/-- `Series.mean()` of a column: mean of the non-missing numeric values,
`NaN` (`none`) when there are none.  (The `mean` strategy is documented to
require a numeric column; string cells do not occur there.) -/
def seriesMean (colv : List Val) : Option ℚ :=
  let nums := colv.filterMap (fun v => match v with | Val.num q => some q | _ => none)
  if nums.isEmpty then none else some (nums.sum / (nums.length : ℚ))

/-- Order on cell values mirroring the sort inside `Series.mode()`
(homogeneous columns in practice; numbers are placed before strings). -/
def valLE : Val → Val → Bool
  | Val.missing, _ => true
  | _, Val.missing => false
  | Val.num a, Val.num b => a ≤ b
  | Val.num _, Val.str _ => true
  | Val.str _, Val.num _ => false
  | Val.str a, Val.str b => a ≤ b

/-- `Series.mode()` followed by `.iloc[0]`: the smallest among the
non-missing values of maximal multiplicity; `none` when every value is
missing (empty mode). -/
def seriesMode (colv : List Val) : Option Val :=
  let vs := colv.filter (fun v => !isMissing v)
  let uniq := dedupeFirst id vs []
  let maxCount := (uniq.map (fun v => vs.count v)).foldl max 0
  let modes := uniq.filter (fun v => vs.count v = maxCount)
  (modes.mergeSort valLE).head?

/-- `fillna(value)`: replace missing cells by `fv` (filling with `NaN`
itself, `fv = missing`, leaves the column unchanged). -/
def fillMissing (colv : List Val) (fv : Val) : List Val :=
  colv.map (fun v => if v = Val.missing then fv else v)

/-- `fillna(method='ffill')`: carry the last non-missing value forward;
leading missing cells stay missing. -/
def ffill : List Val → Option Val → List Val
  | [], _ => []
  | v :: vs, last =>
      match v with
      | Val.missing => (last.getD Val.missing) :: ffill vs last
      | w => w :: ffill vs (some w)

/-- Per-column body of `improve_completeness`: skip absent columns and
columns with no missing values; fill according to the strategy tag; the
`completeness` log entry is appended for every processed column, whether or
not the strategy tag matched a branch. -/
def completenessStep (df : DataFrame) (p : String × String) : DataFrame × List LogEntry :=
  let c := p.1
  let strat := p.2
  match idxOf c df.cols with
  | none => (df, [])
  | some _ =>
      let colv := df.col c
      let mc := colv.countP isMissing
      if mc = 0 then (df, [])
      else
        let df' :=
          if strat = "mean" then
            let fv := match seriesMean colv with | some q => Val.num q | none => Val.missing
            setCol df c (fillMissing colv fv)
          else if strat = "mode" then
            let fv := (seriesMode colv).getD (Val.str "UNKNOWN")
            setCol df c (fillMissing colv fv)
          else if strat = "forward_fill" then
            setCol df c (ffill colv none)
          else if strat.startsWith "custom_" then
            setCol df c (fillMissing colv (Val.str (strat.replace "custom_" "")))
          else df
        (df', [⟨"completeness",
               "Colonne " ++ c ++ ": " ++ toString mc ++
                 " valeurs manquantes comblées avec stratégie " ++ sQ ++ strat ++ sQ⟩])

/-- `improve_completeness(df, strategies)`. -/
def improve_completeness (df : DataFrame) (strategies : List (String × String))
    (log : List LogEntry) : DataFrame × List LogEntry :=
  foldSteps completenessStep strategies (df, log)

/-- Python `repr` of a string (quotes around it; escaping not needed for the
identifiers that occur in configurations). -/
def pyStrRepr (s : String) : String := sQ ++ s ++ sQ

/-- Python `repr` of a list of strings. -/
def pyListRepr (l : List String) : String :=
  "[" ++ String.intercalate ", " (l.map pyStrRepr) ++ "]"

/-- `f"{subset}"` for the optional key-column list. -/
def subsetRepr : Option (List String) → String
  | none => "None"
  | some l => pyListRepr l

/-- `drop_duplicates(subset, keep='first')` on the rows of a frame. -/
def drop_duplicates (df : DataFrame) (subset : Option (List String)) : DataFrame :=
  ⟨df.cols, dedupeFirst (rowKey df subset) df.rows []⟩

/-- `DataQualityImprover.remove_duplicates(df, subset=None, keep='first')`:
drop later occurrences, log one `duplicates` entry only when rows were
removed. -/
def remove_duplicates (df : DataFrame) (subset : Option (List String))
    (log : List LogEntry) : DataFrame × List LogEntry :=
  let dfd := drop_duplicates df subset
  let removed := df.rows.length - dfd.rows.length
  (dfd,
   log ++ (if 0 < removed then
     [⟨"duplicates",
       toString removed ++ " doublons supprimés (subset=" ++ subsetRepr subset ++ ", keep=first)"⟩]
   else []))

/-- A format rule: the five tag-selected transforms plus the custom
`{'regex': pattern, 'replacement': r}` rule, whose `re.sub` engine is
modelled as the string function it denotes. -/
inductive FormatRule where
  | title_case
  | upper_case
  | lower_case
  | numeric
  | clean_spaces
  | regexSub (f : String → String)

/-- Rendering of a rule inside the `format` log detail (`f"...règle '{rule}'"`). -/
def ruleName : FormatRule → String
  | FormatRule.title_case => "title_case"
  | FormatRule.upper_case => "upper_case"
  | FormatRule.lower_case => "lower_case"
  | FormatRule.numeric => "numeric"
  | FormatRule.clean_spaces => "clean_spaces"
  | FormatRule.regexSub _ => "regex"

/-- `pd.to_numeric(·, errors='coerce')` on one cell: numbers pass through,
missing stays missing, strings parse or become missing. -/
def toNumericVal : Val → Val
  | Val.num q => Val.num q
  | Val.missing => Val.missing
  | Val.str s =>
      match parseRat s with
      | some q => Val.num q
      | none => Val.missing

/-- Per-column body of `standardize_format`: the four string rules and the
regex rule go through `astype(str)` first (so every cell, missing included,
becomes a string), only `numeric` works on the original cells; one `format`
log entry per present column. -/
def formatStep (df : DataFrame) (p : String × FormatRule) : DataFrame × List LogEntry :=
  match idxOf p.1 df.cols with
  | none => (df, [])
  | some _ =>
      let colv := df.col p.1
      let newCol :=
        match p.2 with
        | FormatRule.title_case => colv.map (fun v => Val.str (titleCase (valToStr v)))
        | FormatRule.upper_case => colv.map (fun v => Val.str ((valToStr v).map Char.toUpper))
        | FormatRule.lower_case => colv.map (fun v => Val.str ((valToStr v).map Char.toLower))
        | FormatRule.numeric => colv.map toNumericVal
        | FormatRule.clean_spaces => colv.map (fun v => Val.str ((valToStr v).trim))
        | FormatRule.regexSub f => colv.map (fun v => Val.str (f (valToStr v)))
      (setCol df p.1 newCol,
       [⟨"format",
         "Colonne " ++ p.1 ++ ": format standardisé avec règle " ++ sQ ++ ruleName p.2 ++ sQ⟩])

/-- `standardize_format(df, format_rules)`. -/
def standardize_format (df : DataFrame) (format_rules : List (String × FormatRule))
    (log : List LogEntry) : DataFrame × List LogEntry :=
  foldSteps formatStep format_rules (df, log)

/-- `Series.replace(mapping)` after `astype(str)`: one simultaneous pass,
each cell that equals a mapping key is replaced by its mapped value. -/
def applyMap (m : List (String × String)) (s : String) : String :=
  match m.find? (fun q => q.1 = s) with
  | some q => q.2
  | none => s

/-- Python `repr` of one original cell value inside the unmapped-set log text. -/
def valRepr : Val → String
  | Val.str s => pyStrRepr s
  | Val.num q => numToStr q
  | Val.missing => "nan"

/-- Python `repr` of the set of unmapped values (set iteration order is
modelled as first occurrence). -/
def pySetRepr (l : List Val) : String :=
  "\x7b" ++ String.intercalate ", " (l.map valRepr) ++ "\x7d"

/-- Per-column body of `normalize_codification`: `astype(str)` then the
mapping replacement, and one `codification` log entry whose message depends
on whether some original distinct values were left unmapped. -/
def codifStep (df : DataFrame) (p : String × List (String × String)) :
    DataFrame × List LogEntry :=
  match idxOf p.1 df.cols with
  | none => (df, [])
  | some _ =>
      let colv := df.col p.1
      let origUnique := dedupeFirst id colv []
      let unmapped := origUnique.filter (fun v =>
        match v with
        | Val.str s => !(p.2.any (fun q => q.1 = s))
        | _ => true)
      let newCol := colv.map (fun v => Val.str (applyMap p.2 (valToStr v)))
      (setCol df p.1 newCol,
       [⟨"codification",
         if unmapped.isEmpty then
           "Colonne " ++ p.1 ++ ": " ++ toString p.2.length ++ " codes normalisés avec succès"
         else
           "Colonne " ++ p.1 ++ ": " ++ toString p.2.length ++ " codes mappés, " ++
             toString unmapped.length ++ " valeurs non mappées: " ++ pySetRepr unmapped⟩])

/-- `normalize_codification(df, codification_rules)`. -/
def normalize_codification (df : DataFrame)
    (codification_rules : List (String × List (String × String)))
    (log : List LogEntry) : DataFrame × List LogEntry :=
  foldSteps codifStep codification_rules (df, log)

/-- A business-rule action. -/
inductive RuleAction where
  | set_value (column : String) (value : Val)
  | multiply (column : String) (factor : ℚ)
  | flag (flag_column : String) (flag_value : Val)

/-- A business rule.  The predicate is a string expression interpreted by
`DataFrame.eval`; that interpreter is environment machinery outside the
module, so the condition is modelled as the (possibly failing) row-mask
evaluator it denotes. -/
structure BusinessRule where
  name : String
  condition : DataFrame → CheckResult (List Bool)
  action : RuleAction

/-- `df.loc[mask, c] = v`: overwrite the masked rows of a column; a new
column is created (missing elsewhere) when the name is absent. -/
def setMasked (df : DataFrame) (c : String) (mask : List Bool) (v : Val) : DataFrame :=
  match idxOf c df.cols with
  | some i =>
      ⟨df.cols, (df.rows.zip mask).map (fun rb => if rb.2 then rb.1.set i v else rb.1)⟩
  | none =>
      ⟨df.cols ++ [c],
       (df.rows.zip mask).map (fun rb => rb.1 ++ [if rb.2 then v else Val.missing])⟩

/-- `v * factor` for the multiply action (numbers scale, `NaN` stays `NaN`;
a string cell raises a `TypeError` in the source, which the caller catches). -/
def mulVal (v : Val) (f : ℚ) : Val :=
  match v with
  | Val.num q => Val.num (q * f)
  | w => w

/-- Apply a business-rule action to the masked rows; errors mirror the
exceptions `df.loc` raises (missing column for `*=`, string cells times a
float factor). -/
def applyActionE (df : DataFrame) (mask : List Bool) : RuleAction → CheckResult DataFrame
  | RuleAction.set_value c v => CheckResult.ok (setMasked df c mask v)
  | RuleAction.flag c v => CheckResult.ok (setMasked df c mask v)
  | RuleAction.multiply c f =>
      match idxOf c df.cols with
      | none => CheckResult.err (pyStrRepr c)
      | some i =>
          if (df.col c).any (fun v => match v with | Val.str _ => true | _ => false) then
            CheckResult.err "unsupported operand type for *="
          else
            CheckResult.ok
              ⟨df.cols,
               (df.rows.zip mask).map (fun rb =>
                 if rb.2 then rb.1.set i (mulVal (rb.1.getD i Val.missing) f) else rb.1)⟩

/-- Per-rule body of `apply_business_rules`: evaluate the predicate inside
`try`; on failure append a `business_rule_error` entry naming the rule and
continue; on success apply the action when any row matched and log the
affected count (no entry when the mask is empty). -/
def businessStep (df : DataFrame) (r : BusinessRule) : DataFrame × List LogEntry :=
  match r.condition df with
  | CheckResult.err e =>
      (df, [⟨"business_rule_error", "Erreur dans la règle " ++ r.name ++ ": " ++ e⟩])
  | CheckResult.ok mask =>
      let affected := mask.count true
      if 0 < affected then
        match applyActionE df mask r.action with
        | CheckResult.err e =>
            (df, [⟨"business_rule_error", "Erreur dans la règle " ++ r.name ++ ": " ++ e⟩])
        | CheckResult.ok df' =>
            (df', [⟨"business_rule",
                    "Règle " ++ r.name ++ ": " ++ toString affected ++ " lignes affectées"⟩])
      else (df, [])

/-- `apply_business_rules(df, business_rules)`: rules processed strictly in
order, each seeing the effect of the previous ones; never raises. -/
def apply_business_rules (df : DataFrame) (business_rules : List BusinessRule)
    (log : List LogEntry) : DataFrame × List LogEntry :=
  foldSteps businessStep business_rules (df, log)

/-! ## Definitions used by the claim statements -/

/-- A score field is a defined number within `[0, 100]` (false on `NaN`). -/
def scoreOK : Option ℚ → Bool
  | some q => decide (0 ≤ q) && decide (q ≤ 100)
  | none => false

/-- A report with its timestamp erased, for comparing two runs modulo the
clock. -/
def stripTimestamp (r : QualityReport) : QualityReport :=
  { r with timestamp := "" }

/-- The concrete dataset of the spec's scenario A: ten rows, one column
`CSP` with values `["1","2","cadre",None,"9","1","2","3","4","employe"]`. -/
def dfScenarioA : DataFrame :=
  ⟨["CSP"],
   [[Val.str "1"], [Val.str "2"], [Val.str "cadre"], [Val.missing], [Val.str "9"],
    [Val.str "1"], [Val.str "2"], [Val.str "3"], [Val.str "4"], [Val.str "employe"]]⟩

/-! ## Lemmas: first-occurrence deduplication -/

theorem dedupeFirst_sublist {α κ : Type} [DecidableEq κ] (key : α → κ) :
    ∀ (l : List α) (seen : List κ), (dedupeFirst key l seen).Sublist l
  | [], _ => List.Sublist.refl _
  | a :: as, seen => by
      unfold dedupeFirst
      split
      · exact (dedupeFirst_sublist key as _).cons a
      · exact (dedupeFirst_sublist key as _).cons₂ a

theorem dedupeFirst_key_not_seen {α κ : Type} [DecidableEq κ] (key : α → κ) :
    ∀ (l : List α) (seen : List κ) (a : α), a ∈ dedupeFirst key l seen → key a ∉ seen
  | [], _, _, h => by simp [dedupeFirst] at h
  | x :: xs, seen, a, h => by
      unfold dedupeFirst at h
      split at h
      · have := dedupeFirst_key_not_seen key xs (key x :: seen) a h
        exact fun hmem => this (List.mem_cons_of_mem _ hmem)
      · rcases List.mem_cons.mp h with rfl | h'
        · assumption
        · have := dedupeFirst_key_not_seen key xs (key x :: seen) a h'
          exact fun hmem => this (List.mem_cons_of_mem _ hmem)

theorem dedupeFirst_pairwise {α κ : Type} [DecidableEq κ] (key : α → κ) :
    ∀ (l : List α) (seen : List κ),
      (dedupeFirst key l seen).Pairwise (fun a b => key a ≠ key b)
  | [], _ => List.Pairwise.nil
  | x :: xs, seen => by
      unfold dedupeFirst
      split
      · exact dedupeFirst_pairwise key xs _
      · refine List.Pairwise.cons ?_ (dedupeFirst_pairwise key xs _)
        intro b hb
        have := dedupeFirst_key_not_seen key xs (key x :: seen) b hb
        intro hxb
        exact this (by simp [hxb.symm])

theorem dedupeFirst_eq_self {α κ : Type} [DecidableEq κ] (key : α → κ) :
    ∀ (l : List α) (seen : List κ),
      (∀ a ∈ l, key a ∉ seen) → l.Pairwise (fun a b => key a ≠ key b) →
      dedupeFirst key l seen = l
  | [], _, _, _ => rfl
  | x :: xs, seen, hseen, hpw => by
      unfold dedupeFirst
      rw [if_neg (hseen x (List.mem_cons_self x xs))]
      congr 1
      refine dedupeFirst_eq_self key xs (key x :: seen) ?_ hpw.of_cons
      intro a ha
      intro hmem
      rcases List.mem_cons.mp hmem with heq | hmem'
      · exact (List.pairwise_cons.mp hpw).1 a ha heq.symm
      · exact hseen a (List.mem_cons_of_mem _ ha) hmem'

theorem dedupeFirst_idem {α κ : Type} [DecidableEq κ] (key : α → κ) (l : List α) :
    dedupeFirst key (dedupeFirst key l []) [] = dedupeFirst key l [] := by
  refine dedupeFirst_eq_self key _ [] ?_ (dedupeFirst_pairwise key l [])
  intro a _ h
  exact absurd h (List.not_mem_nil _)

theorem dedupeFirst_find? {α κ : Type} [DecidableEq κ] [DecidableEq α] (key : α → κ) :
    ∀ (l : List α) (seen : List κ) (b : α), b ∈ dedupeFirst key l seen →
      key b ∉ seen ∧ l.find? (fun x => decide (key x = key b)) = some b
  | [], _, _, h => by simp [dedupeFirst] at h
  | x :: xs, seen, b, h => by
      unfold dedupeFirst at h
      split at h
      case isTrue hxseen =>
        obtain ⟨hns, hfind⟩ := dedupeFirst_find? key xs (key x :: seen) b h
        have hne : key x ≠ key b := fun he => hns (by simp [he])
        constructor
        · exact fun hmem => hns (List.mem_cons_of_mem _ hmem)
        · rw [List.find?_cons]
          simp only [hne, decide_eq_true_eq, if_neg]
          · exact hfind
      case isFalse hxseen =>
        rcases List.mem_cons.mp h with rfl | h'
        · refine ⟨hxseen, ?_⟩
          rw [List.find?_cons]
          simp
        · obtain ⟨hns, hfind⟩ := dedupeFirst_find? key xs (key x :: seen) b h'
          have hne : key x ≠ key b := fun he => hns (by simp [he])
          constructor
          · exact fun hmem => hns (List.mem_cons_of_mem _ hmem)
          · rw [List.find?_cons]
            simp only [hne, decide_eq_true_eq, if_neg]
            · exact hfind

theorem dedupeFirst_covers {α κ : Type} [DecidableEq κ] (key : α → κ) :
    ∀ (l : List α) (seen : List κ) (a : α), a ∈ l → key a ∉ seen →
      ∃ b ∈ dedupeFirst key l seen, key b = key a
  | [], _, _, ha, _ => absurd ha (List.not_mem_nil _)
  | x :: xs, seen, a, ha, hns => by
      unfold dedupeFirst
      split
      case isTrue hxseen =>
        rcases List.mem_cons.mp ha with rfl | ha'
        · exact absurd hxseen hns
        · refine dedupeFirst_covers key xs (key x :: seen) a ha' ?_
          intro hmem
          rcases List.mem_cons.mp hmem with heq | h'
          · rw [heq] at hns; exact hns hxseen
          · exact hns h'
      case isFalse hxseen =>
        rcases List.mem_cons.mp ha with rfl | ha'
        · exact ⟨a, List.mem_cons_self _ _, rfl⟩
        · by_cases hk : key a = key x
          · exact ⟨x, List.mem_cons_self _ _, hk.symm⟩
          · obtain ⟨b, hb, hkb⟩ := dedupeFirst_covers key xs (key x :: seen) a ha'
              (by intro hmem
                  rcases List.mem_cons.mp hmem with heq | h'
                  · exact hk heq
                  · exact hns h')
            exact ⟨b, List.mem_cons_of_mem _ hb, hkb⟩

/-! ## Lemmas: log threading, counting, rounding, means -/

theorem foldSteps_split {α : Type} (step : DataFrame → α → DataFrame × List LogEntry) :
    ∀ (items : List α) (df : DataFrame) (log : List LogEntry),
      foldSteps step items (df, log) =
        ((foldSteps step items (df, [])).1, log ++ (foldSteps step items (df, [])).2)
  | [], df, log => by simp [foldSteps]
  | a :: as, df, log => by
      simp only [foldSteps]
      rw [foldSteps_split step as (step df a).1 (log ++ (step df a).2),
          foldSteps_split step as (step df a).1 ([] ++ (step df a).2)]
      simp

theorem dupCount_le_length {α κ : Type} [DecidableEq κ] (key : α → κ) :
    ∀ (l : List α) (seen : List κ), dupCount key l seen ≤ l.length
  | [], _ => Nat.le_refl 0
  | a :: as, seen => by
      unfold dupCount
      have := dupCount_le_length key as (key a :: seen)
      split <;> simp <;> omega

theorem roundHalfEven_nonneg {x : ℚ} (hx : 0 ≤ x) : 0 ≤ roundHalfEven x := by
  unfold roundHalfEven
  have h0 : (0 : ℤ) ≤ ⌊x⌋ := Int.le_floor.mpr (by exact_mod_cast hx)
  split_ifs <;> omega

theorem roundHalfEven_le {x : ℚ} {B : ℤ} (h : x ≤ (B : ℚ)) : roundHalfEven x ≤ B := by
  unfold roundHalfEven
  have hfl : ⌊x⌋ ≤ B := by
    calc ⌊x⌋ ≤ ⌊(B : ℚ)⌋ := Int.floor_le_floor h
    _ = B := Int.floor_intCast B
  split_ifs with h1 h2 h3
  · exact hfl
  · have hx2 : (⌊x⌋ : ℚ) + 1 / 2 ≤ x := by linarith
    have : (⌊x⌋ : ℚ) < (B : ℚ) := by linarith
    have : ⌊x⌋ < B := by exact_mod_cast this
    omega
  · exact hfl
  · have hx2 : (⌊x⌋ : ℚ) + 1 / 2 ≤ x := by linarith
    have : (⌊x⌋ : ℚ) < (B : ℚ) := by linarith
    have : ⌊x⌋ < B := by exact_mod_cast this
    omega

theorem round2_nonneg {x : ℚ} (hx : 0 ≤ x) : 0 ≤ round2 x := by
  unfold round2
  have : (0 : ℤ) ≤ roundHalfEven (x * 100) := roundHalfEven_nonneg (by linarith)
  positivity

theorem round2_le_100 {x : ℚ} (hx : x ≤ 100) : round2 x ≤ 100 := by
  unfold round2
  have h1 : x * 100 ≤ ((10000 : ℤ) : ℚ) := by push_cast; linarith
  have h2 : roundHalfEven (x * 100) ≤ 10000 := roundHalfEven_le h1
  have h3 : ((roundHalfEven (x * 100) : ℤ) : ℚ) ≤ 10000 := by exact_mod_cast h2
  linarith

theorem round2_bounds {x : ℚ} (h0 : 0 ≤ x) (h1 : x ≤ 100) :
    0 ≤ round2 x ∧ round2 x ≤ 100 :=
  ⟨round2_nonneg h0, round2_le_100 h1⟩

theorem listMean_bounds {l : List ℚ} (hne : l ≠ [])
    (hB : ∀ x ∈ l, 0 ≤ x ∧ x ≤ 100) :
    0 ≤ l.sum / (l.length : ℚ) ∧ l.sum / (l.length : ℚ) ≤ 100 := by
  have hlen : 0 < (l.length : ℚ) := by
    have : 0 < l.length := List.length_pos.mpr hne
    exact_mod_cast this
  have hs0 : 0 ≤ l.sum := List.sum_nonneg (fun x hx => (hB x hx).1)
  have hsB : l.sum ≤ (l.length : ℚ) * 100 := by
    have := List.sum_le_card_nsmul l 100 (fun x hx => (hB x hx).2)
    simpa [nsmul_eq_mul] using this
  constructor
  · positivity
  · rw [div_le_iff₀ hlen]
    linarith

/-! ## Lemmas: column lookup and column overwrite -/

theorem idxOf_lt {c : String} : ∀ {cols : List String} {i : Nat},
    idxOf c cols = some i → i < cols.length
  | [], _, h => by simp [idxOf] at h
  | n :: ns, i, h => by
      unfold idxOf at h
      split at h
      · cases h; simp
      · cases hrec : idxOf c ns with
        | none => rw [hrec] at h; simp at h
        | some j =>
            rw [hrec] at h
            simp at h
            cases h
            have := idxOf_lt hrec
            simp only [List.length_cons]
            omega

theorem idxOf_getD {c : String} : ∀ {cols : List String} {i : Nat},
    idxOf c cols = some i → cols.getD i "" = c
  | [], _, h => by simp [idxOf] at h
  | n :: ns, i, h => by
      unfold idxOf at h
      split at h
      case isTrue heq => cases h; simpa using heq
      case isFalse =>
        cases hrec : idxOf c ns with
        | none => rw [hrec] at h; simp at h
        | some j =>
            rw [hrec] at h
            simp at h
            cases h
            simpa using idxOf_getD hrec

theorem idxOf_isSome_of_mem {c : String} : ∀ {cols : List String},
    c ∈ cols → (idxOf c cols).isSome
  | [], h => absurd h (List.not_mem_nil _)
  | n :: ns, h => by
      unfold idxOf
      split
      · simp
      case isFalse hne =>
        rcases List.mem_cons.mp h with rfl | h'
        · exact absurd rfl hne
        · have := idxOf_isSome_of_mem h'
          cases hrec : idxOf c ns with
          | none => rw [hrec] at this; simp at this
          | some j => simp

theorem idxOf_ne {c c' : String} {cols : List String} {i j : Nat}
    (hi : idxOf c cols = some i) (hj : idxOf c' cols = some j) (hne : c ≠ c') : i ≠ j := by
  intro heq
  apply hne
  rw [← idxOf_getD hi, ← idxOf_getD hj, heq]

theorem col_length {df : DataFrame} {c : String} (h : c ∈ df.cols) :
    (df.col c).length = df.rows.length := by
  unfold DataFrame.col
  have := idxOf_isSome_of_mem h
  cases hidx : idxOf c df.cols with
  | none => rw [hidx] at this; simp at this
  | some i => simp

theorem col_length_le (df : DataFrame) (c : String) :
    (df.col c).length ≤ df.rows.length := by
  unfold DataFrame.col
  cases hidx : idxOf c df.cols with
  | none => simp
  | some i => simp

theorem getD_set_self : ∀ (l : List Val) (i : Nat) (v : Val), i < l.length →
    (l.set i v).getD i Val.missing = v
  | [], i, v, h => by simp at h
  | a :: as, 0, v, _ => rfl
  | a :: as, i + 1, v, h => by
      simp only [List.set_cons_succ, List.getD_cons_succ]
      exact getD_set_self as i v (by simpa using h)

theorem getD_set_ne : ∀ (l : List Val) (i j : Nat) (v : Val), i ≠ j →
    (l.set i v).getD j Val.missing = l.getD j Val.missing
  | [], _, _, _, _ => by simp
  | a :: as, 0, 0, v, h => absurd rfl h
  | a :: as, 0, j + 1, v, _ => by simp
  | a :: as, i + 1, 0, v, _ => by simp
  | a :: as, i + 1, j + 1, v, h => by
      simp only [List.set_cons_succ, List.getD_cons_succ]
      exact getD_set_ne as i j v (by omega)

theorem zipWith_set_getD {i : Nat} :
    ∀ (rows : List (List Val)) (vs : List Val),
      (∀ r ∈ rows, i < r.length) → vs.length = rows.length →
      (rows.zipWith (fun r v => r.set i v) vs).map (fun r => r.getD i Val.missing) = vs
  | [], [], _, _ => rfl
  | [], v :: vs, _, hlen => by simp at hlen
  | r :: rows, [], _, hlen => by simp at hlen
  | r :: rows, v :: vs, hlt, hlen => by
      simp only [List.zipWith_cons_cons, List.map_cons]
      rw [getD_set_self r i v (hlt r (List.mem_cons_self _ _))]
      congr 1
      exact zipWith_set_getD rows vs (fun x hx => hlt x (List.mem_cons_of_mem _ hx))
        (by simpa using hlen)

theorem cols_setCol (df : DataFrame) (c : String) (vs : List Val) :
    (setCol df c vs).cols = df.cols := by
  unfold setCol
  cases idxOf c df.cols <;> simp

theorem rows_length_setCol {df : DataFrame} {c : String} {vs : List Val}
    (hlen : vs.length = df.rows.length) :
    (setCol df c vs).rows.length = df.rows.length := by
  unfold setCol
  cases idxOf c df.cols with
  | none => simp
  | some i => simp [hlen]

theorem col_setCol_self {df : DataFrame} {c : String} {vs : List Val}
    (hwf : df.WF) (hc : c ∈ df.cols) (hlen : vs.length = df.rows.length) :
    (setCol df c vs).col c = vs := by
  have hsome := idxOf_isSome_of_mem hc
  cases hidx : idxOf c df.cols with
  | none => rw [hidx] at hsome; simp at hsome
  | some i =>
      unfold setCol DataFrame.col
      rw [hidx]
      simp only [hidx]
      exact zipWith_set_getD df.rows vs
        (fun r hr => by rw [hwf r hr]; exact idxOf_lt hidx) hlen

theorem map_zipWith_set_getD {i j : Nat} (hne : i ≠ j) :
    ∀ (rows : List (List Val)) (vs : List Val), vs.length = rows.length →
      (rows.zipWith (fun r v => r.set i v) vs).map (fun r => r.getD j Val.missing) =
        rows.map (fun r => r.getD j Val.missing)
  | [], [], _ => rfl
  | [], v :: vs, hlen => by simp at hlen
  | r :: rows, [], hlen => by simp at hlen
  | r :: rows, v :: vs, hlen => by
      simp only [List.zipWith_cons_cons, List.map_cons]
      rw [getD_set_ne r i j v hne]
      congr 1
      exact map_zipWith_set_getD hne rows vs (by simpa using hlen)

theorem col_setCol_other {df : DataFrame} {c c' : String} {vs : List Val}
    (hc' : c' ∈ df.cols) (hne : c' ≠ c)
    (hlen : vs.length = df.rows.length) :
    (setCol df c vs).col c' = df.col c' := by
  have hsome' := idxOf_isSome_of_mem hc'
  cases hidx' : idxOf c' df.cols with
  | none => rw [hidx'] at hsome'; simp at hsome'
  | some j =>
      cases hidx : idxOf c df.cols with
      | none => unfold setCol; rw [hidx]
      | some i =>
          unfold setCol DataFrame.col
          rw [hidx]
          simp only [cols_setCol, hidx']
          exact map_zipWith_set_getD (idxOf_ne hidx hidx' (fun h => hne h.symm)) df.rows vs hlen

/-! ## Lemmas: score bounds of the individual checks -/

theorem scoreOK_some {q : ℚ} (h0 : 0 ≤ q) (h1 : q ≤ 100) : scoreOK (some q) = true := by
  simp [scoreOK, h0, h1]

theorem scoreOK_bounds {q : ℚ} (h : scoreOK (some q) = true) : 0 ≤ q ∧ q ≤ 100 := by
  simpa [scoreOK] using h

theorem pct_bounds {m n : Nat} (hmn : m ≤ n) (hn : 0 < n) :
    0 ≤ round2 ((m : ℚ) / (n : ℚ) * 100) ∧ round2 ((m : ℚ) / (n : ℚ) * 100) ≤ 100 := by
  have hnq : 0 < (n : ℚ) := by exact_mod_cast hn
  have hx0 : 0 ≤ (m : ℚ) / (n : ℚ) * 100 := by positivity
  have hx1 : (m : ℚ) / (n : ℚ) * 100 ≤ 100 := by
    have h1 : (m : ℚ) / (n : ℚ) ≤ 1 := by
      rw [div_le_one hnq]; exact_mod_cast hmn
    linarith
  exact round2_bounds hx0 hx1

theorem check_completeness_bounds {df : DataFrame} {columns : Option (List String)}
    (hne : df.rows ≠ []) :
    ∀ p ∈ check_completeness df columns, scoreOK p.2.completeness_score = true := by
  intro p hp
  unfold check_completeness at hp
  rw [List.mem_map] at hp
  obtain ⟨c, _, rfl⟩ := hp
  have htot : df.rows.length ≠ 0 := fun h => hne (List.length_eq_zero.mp h)
  have hpos : 0 < df.rows.length := Nat.pos_of_ne_zero htot
  have hmc : (df.col c).countP isMissing ≤ df.rows.length :=
    le_trans (List.countP_le_length _) (col_length_le df c)
  have hb := pct_bounds hmc hpos
  show scoreOK ((if df.rows.length = 0 then none
      else some (round2 (((df.col c).countP isMissing : ℚ) / (df.rows.length : ℚ) * 100))).map
        (fun p => 100 - p)) = true
  rw [if_neg htot, Option.map_some']
  exact scoreOK_some (by linarith [hb.2]) (by linarith [hb.1])

theorem check_duplicates_bounds {df : DataFrame} {subset : Option (List String)}
    (hne : df.rows ≠ []) :
    scoreOK (check_duplicates df subset).uniqueness_score = true := by
  have htot : df.rows.length ≠ 0 := fun h => hne (List.length_eq_zero.mp h)
  have hpos : 0 < df.rows.length := Nat.pos_of_ne_zero htot
  have hd : dupCount (rowKey df subset) df.rows [] ≤ df.rows.length :=
    dupCount_le_length _ df.rows []
  show scoreOK (if df.rows.length = 0 then none
      else some (round2 (((df.rows.length : ℚ) - (dupCount (rowKey df subset) df.rows [] : ℚ)) /
        (df.rows.length : ℚ) * 100))) = true
  rw [if_neg htot]
  have heq : ((df.rows.length : ℚ) - (dupCount (rowKey df subset) df.rows [] : ℚ)) =
      ((df.rows.length - dupCount (rowKey df subset) df.rows [] : Nat) : ℚ) := by
    push_cast [hd]; ring
  rw [heq]
  have hb := pct_bounds (Nat.sub_le df.rows.length (dupCount (rowKey df subset) df.rows [])) hpos
  exact scoreOK_some hb.1 hb.2

theorem isEmpty_false_pos {l : List Val} (h : ¬ l.isEmpty = true) : 0 < l.length := by
  cases l with
  | nil => simp at h
  | cons a as => simp

theorem check_format_bounds {df : DataFrame} {c : String} {fr : FormatReport}
    (h : check_format_consistency df c = CheckResult.ok fr) :
    0 ≤ fr.format_consistency_score ∧ fr.format_consistency_score ≤ 100 := by
  by_cases h1 : c ∈ df.cols
  · by_cases h2 : ((df.col c).filter (fun v => !isMissing v)).isEmpty = true
    · simp only [check_format_consistency, h1, h2, if_true, if_false] at h
      exact (CheckResult.noConfusion h)
    · simp only [check_format_consistency, h1, h2, if_true] at h
      rw [if_neg (by simp)] at h
      injection h with h
      subst h
      exact pct_bounds (List.countP_le_length _) (isEmpty_false_pos h2)
  · simp only [check_format_consistency, h1, if_false] at h
    exact (CheckResult.noConfusion h)

theorem check_codif_bounds {df : DataFrame} {c : String}
    {codes : Option (List String)} {kr : CodifReport}
    (h : check_codification_consistency df c codes = CheckResult.ok kr) :
    0 ≤ kr.codification_score ∧ kr.codification_score ≤ 100 := by
  by_cases h1 : c ∈ df.cols
  · by_cases h2 : ((df.col c).filter (fun v => !isMissing v)).isEmpty = true
    · simp only [check_codification_consistency, h1, h2, if_true, if_false] at h
      exact (CheckResult.noConfusion h)
    · rcases codes with _ | ⟨_ | ⟨c0, cs'⟩⟩ <;>
        · simp only [check_codification_consistency, h1, h2, if_true] at h
          rw [if_neg (by simp)] at h
          injection h with h
          subst h
          exact pct_bounds (List.countP_le_length _) (isEmpty_false_pos h2)
  · simp only [check_codification_consistency, h1, if_false] at h
    exact (CheckResult.noConfusion h)

/-! ## Lemmas: bounds of the aggregated quality score -/

theorem filterMap_id_length : ∀ {l : List (Option ℚ)}, l.all Option.isSome = true →
    (l.filterMap id).length = l.length
  | [], _ => rfl
  | none :: xs, h => by simp at h
  | some x :: xs, h => by
      simp only [List.all_cons, Bool.and_eq_true] at h
      simp only [List.filterMap_cons, id, List.length_cons]
      rw [filterMap_id_length h.2]

theorem npMeanOpt_bounds {l : List (Option ℚ)} (hne : ¬ l.isEmpty = true)
    (hsome : l.all Option.isSome = true)
    (hB : ∀ q : ℚ, some q ∈ l → 0 ≤ q ∧ q ≤ 100) :
    ∃ q, npMeanOpt l = some q ∧ 0 ≤ q ∧ q ≤ 100 := by
  refine ⟨(l.filterMap id).sum / ((l.filterMap id).length : ℚ), ?_, ?_⟩
  · unfold npMeanOpt
    rw [if_pos hsome]
  · have hlen : (l.filterMap id).length = l.length := filterMap_id_length hsome
    have hlne : l.filterMap id ≠ [] := by
      intro hnil
      have : l.length = 0 := by rw [← hlen, hnil]; rfl
      rw [List.length_eq_zero] at this
      rw [this] at hne
      simp at hne
    refine listMean_bounds hlne ?_
    intro x hx
    rw [List.mem_filterMap] at hx
    obtain ⟨a, ha, hax⟩ := hx
    simp only [id] at hax
    subst hax
    exact hB x ha

theorem calculate_bounds
    {cr : List (String × CompletenessEntry)} {dr : DuplicatesReport}
    {fr : List (String × CheckResult FormatReport)}
    {kr : List (String × CheckResult CodifReport)}
    (hC : ∀ p ∈ cr, scoreOK p.2.completeness_score = true)
    (hU : scoreOK dr.uniqueness_score = true)
    (hF : ∀ p ∈ fr, 0 ≤ formatScore0 p.2 ∧ formatScore0 p.2 ≤ 100)
    (hK : ∀ p ∈ kr, 0 ≤ codifScore0 p.2 ∧ codifScore0 p.2 ≤ 100) :
    scoreOK (calculate_data_quality_score cr dr fr kr).completeness_score = true ∧
    scoreOK (calculate_data_quality_score cr dr fr kr).uniqueness_score = true ∧
    scoreOK (some (calculate_data_quality_score cr dr fr kr).format_score) = true ∧
    scoreOK (some (calculate_data_quality_score cr dr fr kr).codification_score) = true ∧
    scoreOK (calculate_data_quality_score cr dr fr kr).overall_quality_score = true := by
  obtain ⟨u, hu_eq, hu0, hu1⟩ : ∃ u, dr.uniqueness_score = some u ∧ 0 ≤ u ∧ u ≤ 100 := by
    cases hcase : dr.uniqueness_score with
    | none => rw [hcase] at hU; simp [scoreOK] at hU
    | some u =>
        rw [hcase] at hU
        obtain ⟨h0, h1⟩ := scoreOK_bounds hU
        exact ⟨u, rfl, h0, h1⟩
  obtain ⟨cq, hc_eq, hc0, hc1⟩ : ∃ q,
      (if (cr.map (fun p => p.2.completeness_score)).isEmpty then some 0
       else npMeanOpt (cr.map (fun p => p.2.completeness_score))) = some q ∧
      0 ≤ q ∧ q ≤ 100 := by
    by_cases hcr : (cr.map (fun p => p.2.completeness_score)).isEmpty = true
    · exact ⟨0, by rw [if_pos hcr], le_refl 0, by norm_num⟩
    · have hsome : (cr.map (fun p => p.2.completeness_score)).all Option.isSome = true := by
        rw [List.all_eq_true]
        intro x hx
        rw [List.mem_map] at hx
        obtain ⟨p, hp, rfl⟩ := hx
        have := hC p hp
        cases hcase : p.2.completeness_score with
        | none => rw [hcase] at this; simp [scoreOK] at this
        | some q => simp
      have hB : ∀ q : ℚ, some q ∈ cr.map (fun p => p.2.completeness_score) →
          0 ≤ q ∧ q ≤ 100 := by
        intro q hq
        rw [List.mem_map] at hq
        obtain ⟨p, hp, hpq⟩ := hq
        have := hC p hp
        rw [hpq] at this
        exact scoreOK_bounds this
      obtain ⟨q, hq_eq, hq0, hq1⟩ := npMeanOpt_bounds hcr hsome hB
      exact ⟨q, by rw [if_neg hcr, hq_eq], hq0, hq1⟩
  obtain ⟨hf0, hf1⟩ : 0 ≤ (if (fr.map (fun p => formatScore0 p.2)).isEmpty then (0 : ℚ)
      else (fr.map (fun p => formatScore0 p.2)).sum /
        ((fr.map (fun p => formatScore0 p.2)).length : ℚ)) ∧
      (if (fr.map (fun p => formatScore0 p.2)).isEmpty then (0 : ℚ)
      else (fr.map (fun p => formatScore0 p.2)).sum /
        ((fr.map (fun p => formatScore0 p.2)).length : ℚ)) ≤ 100 := by
    by_cases hfr : (fr.map (fun p => formatScore0 p.2)).isEmpty = true
    · rw [if_pos hfr]; norm_num
    · rw [if_neg hfr]
      refine listMean_bounds (fun hnil => hfr (by rw [hnil]; rfl)) ?_
      intro x hx
      rw [List.mem_map] at hx
      obtain ⟨p, hp, rfl⟩ := hx
      exact hF p hp
  obtain ⟨hk0, hk1⟩ : 0 ≤ (if (kr.map (fun p => codifScore0 p.2)).isEmpty then (0 : ℚ)
      else (kr.map (fun p => codifScore0 p.2)).sum /
        ((kr.map (fun p => codifScore0 p.2)).length : ℚ)) ∧
      (if (kr.map (fun p => codifScore0 p.2)).isEmpty then (0 : ℚ)
      else (kr.map (fun p => codifScore0 p.2)).sum /
        ((kr.map (fun p => codifScore0 p.2)).length : ℚ)) ≤ 100 := by
    by_cases hkr : (kr.map (fun p => codifScore0 p.2)).isEmpty = true
    · rw [if_pos hkr]; norm_num
    · rw [if_neg hkr]
      refine listMean_bounds (fun hnil => hkr (by rw [hnil]; rfl)) ?_
      intro x hx
      rw [List.mem_map] at hx
      obtain ⟨p, hp, rfl⟩ := hx
      exact hK p hp
  unfold calculate_data_quality_score
  dsimp only
  rw [hu_eq, hc_eq]
  refine ⟨?_, ?_, ?_, ?_, ?_⟩
  · exact scoreOK_some (round2_nonneg hc0) (round2_le_100 hc1)
  · exact scoreOK_some (round2_nonneg hu0) (round2_le_100 hu1)
  · exact scoreOK_some (round2_nonneg hf0) (round2_le_100 hf1)
  · exact scoreOK_some (round2_nonneg hk0) (round2_le_100 hk1)
  · refine scoreOK_some (round2_nonneg ?_) (round2_le_100 ?_)
    · linarith [hc0, hu0, hf0, hk0]
    · linarith [hc1, hu1, hf1, hk1]

/-! ## Claim C1 -/

theorem mem_filterMap_if {β : Type} {f : String → β} {P : String → Prop} [DecidablePred P]
    {l : List String} {p : String × β}
    (hp : p ∈ l.filterMap (fun c => if P c then some (c, f c) else none)) :
    p.1 ∈ l ∧ p.2 = f p.1 := by
  rw [List.mem_filterMap] at hp
  obtain ⟨c, hc, hsome⟩ := hp
  by_cases hP : P c
  · rw [if_pos hP] at hsome
    injection hsome with h
    rw [← h]
    exact ⟨hc, rfl⟩
  · rw [if_neg hP] at hsome
    cases hsome

/-- Claim C1, counterexample: on the zero-row dataset with the single column
`A`, `check_completeness` and `check_duplicates` evaluate `0 / 0`; the
resulting `missing_percentage`, `completeness_score` and `uniqueness_score`
are `NaN` (modelled as `none`), which is not a well-defined number in
`[0, 100]`.  The claim's universally quantified bound therefore fails on the
empty dataset. -/
theorem C1_counterexample :
    (check_completeness ⟨["A"], []⟩ none).map (fun p => (p.1, p.2.completeness_score)) =
        [("A", none)] ∧
    (check_duplicates ⟨["A"], []⟩ none).uniqueness_score = none ∧
    scoreOK none = false := by
  exact ⟨rfl, rfl, rfl⟩

/-- Claim C1 (amended): for every dataset with at least one row, every
`*_score` field of the generated quality report is a well-defined number in
`[0, 100]`: each per-column completeness score, the uniqueness score, every
successfully computed format-consistency and codification score, the four
aggregate dimension scores and the overall score.  (On a zero-row dataset
the completeness and uniqueness scores are `NaN`; no exception is raised.) -/
theorem C1_scores_bounded (df : DataFrame) (source_name now : String)
    (hne : df.rows ≠ []) :
    (∀ p ∈ (generate_quality_report df source_name now).completeness,
        scoreOK p.2.completeness_score = true) ∧
    scoreOK (generate_quality_report df source_name now).duplicates.uniqueness_score = true ∧
    (∀ p ∈ (generate_quality_report df source_name now).format_consistency,
        ∀ g, p.2 = CheckResult.ok g →
          0 ≤ g.format_consistency_score ∧ g.format_consistency_score ≤ 100) ∧
    (∀ p ∈ (generate_quality_report df source_name now).codification_consistency,
        ∀ g, p.2 = CheckResult.ok g →
          0 ≤ g.codification_score ∧ g.codification_score ≤ 100) ∧
    scoreOK (generate_quality_report df source_name now).quality_score.completeness_score = true ∧
    scoreOK (generate_quality_report df source_name now).quality_score.uniqueness_score = true ∧
    scoreOK (some (generate_quality_report df source_name now).quality_score.format_score) = true ∧
    scoreOK
      (some (generate_quality_report df source_name now).quality_score.codification_score) = true ∧
    scoreOK
      (generate_quality_report df source_name now).quality_score.overall_quality_score = true := by
  have hC : ∀ p ∈ check_completeness df none, scoreOK p.2.completeness_score = true :=
    check_completeness_bounds hne
  have hU : scoreOK (check_duplicates df none).uniqueness_score = true :=
    check_duplicates_bounds hne
  have hFmem : ∀ p ∈ df.cols.filterMap (fun c =>
      if df.dtypeOf c = "int64" ∨ df.dtypeOf c = "float64" ∨ c ∈ ["CSP", "ID_CSP", "NB_KW_Jour"]
      then some (c, check_format_consistency df c) else none),
      p.2 = check_format_consistency df p.1 := by
    intro p hp
    exact (mem_filterMap_if hp).2
  have hF : ∀ p ∈ df.cols.filterMap (fun c =>
      if df.dtypeOf c = "int64" ∨ df.dtypeOf c = "float64" ∨ c ∈ ["CSP", "ID_CSP", "NB_KW_Jour"]
      then some (c, check_format_consistency df c) else none),
      0 ≤ formatScore0 p.2 ∧ formatScore0 p.2 ≤ 100 := by
    intro p hp
    rw [hFmem p hp]
    cases hcase : check_format_consistency df p.1 with
    | err e => exact ⟨le_refl 0, by norm_num [formatScore0]⟩
    | ok g => exact check_format_bounds hcase
  have hKmem : ∀ p ∈ (if "CSP" ∈ df.cols then
      [("CSP", check_codification_consistency df "CSP" (some ["1", "2", "3", "4"]))] else []),
      p.2 = check_codification_consistency df "CSP" (some ["1", "2", "3", "4"]) := by
    intro p hp
    by_cases hcsp : "CSP" ∈ df.cols
    · rw [if_pos hcsp] at hp
      rw [List.mem_singleton] at hp
      rw [hp]
    · rw [if_neg hcsp] at hp
      exact absurd hp (List.not_mem_nil p)
  have hK : ∀ p ∈ (if "CSP" ∈ df.cols then
      [("CSP", check_codification_consistency df "CSP" (some ["1", "2", "3", "4"]))] else []),
      0 ≤ codifScore0 p.2 ∧ codifScore0 p.2 ≤ 100 := by
    intro p hp
    rw [hKmem p hp]
    cases hcase : check_codification_consistency df "CSP" (some ["1", "2", "3", "4"]) with
    | err e => exact ⟨le_refl 0, by norm_num [codifScore0]⟩
    | ok g => exact check_codif_bounds hcase
  have hagg := calculate_bounds hC hU hF hK
  refine ⟨hC, hU, ?_, ?_, hagg.1, hagg.2.1, hagg.2.2.1, hagg.2.2.2.1, hagg.2.2.2.2⟩
  · intro p hp g hg
    have h2 := hFmem p hp
    rw [h2] at hg
    exact check_format_bounds hg
  · intro p hp g hg
    have h2 := hKmem p hp
    rw [h2] at hg
    exact check_codif_bounds hg

/-- Claim C1, witness: the amended bound instantiated on a concrete one-row
dataset. -/
theorem C1_witness :
    (⟨["CSP"], [[Val.str "1"]]⟩ : DataFrame).rows ≠ [] ∧
    scoreOK (generate_quality_report ⟨["CSP"], [[Val.str "1"]]⟩ "w"
        "t").quality_score.overall_quality_score = true :=
  ⟨by decide,
   (C1_scores_bounded ⟨["CSP"], [[Val.str "1"]]⟩ "w" "t" (by decide)).2.2.2.2.2.2.2.2⟩

/-! ## Claim C2 -/

/-- Claim C2, counterexample: `calculate_data_quality_score` rounds the
published overall score to 2 decimals, so the returned
`overall_quality_score` is not the exact weighted sum the claim states.
With one completeness column scoring `0.01` and every other dimension `0`,
the weighted sum is `0.003` but the function returns `0.0`. -/
theorem C2_counterexample :
    (calculate_data_quality_score [("a", ⟨0, some 0, 1, some (1 / 100)⟩)]
        ⟨1, 0, some 0, 1, some 0⟩ [] []).overall_quality_score = some 0 ∧
    (1 / 100 : ℚ) * (3 / 10) + (0 : ℚ) * (25 / 100) + (0 : ℚ) * (25 / 100) +
        (0 : ℚ) * (20 / 100) ≠ (0 : ℚ) := by
  constructor
  · have hmean : npMeanOpt [some (1 / 100 : ℚ)] = some (1 / 100) := by
      unfold npMeanOpt
      rw [if_pos (by rfl)]
      simp only [List.filterMap_cons, List.filterMap_nil, id_eq, List.sum_cons,
        List.sum_nil, List.length_cons, List.length_nil]
      norm_num
    unfold calculate_data_quality_score
    dsimp only
    rw [show ((([("a", (⟨0, some 0, 1, some (1 / 100)⟩ : CompletenessEntry))]).map
        (fun p => p.2.completeness_score)).isEmpty) = false from rfl]
    rw [if_neg (by simp)]
    rw [show (([("a", (⟨0, some 0, 1, some (1 / 100)⟩ : CompletenessEntry))]).map
        (fun p => p.2.completeness_score)) = [some (1 / 100)] from rfl]
    rw [hmean]
    norm_num [round2, roundHalfEven]
  · norm_num

/-- Claim C2 (amended): for every completeness report whose scores are all
defined and every duplicates report with a defined uniqueness score,
`calculate_data_quality_score` never raises (it is total, including on empty
format/codification maps, which contribute `0`), and it returns the
weighted sum `0.30·completeness-mean + 0.25·uniqueness + 0.25·format-mean +
0.20·codification-mean` rounded half-to-even to 2 decimals, with the
quality tier derived from the unrounded weighted sum by exactly the step
function `≥90` Excellent, `≥80` Good, `≥70` Fair, `≥60` Poor, otherwise
Very Poor. -/
theorem C2_weighted_score
    (cr : List (String × CompletenessEntry)) (dr : DuplicatesReport)
    (fr : List (String × CheckResult FormatReport))
    (kr : List (String × CheckResult CodifReport)) (u : ℚ)
    (hu : dr.uniqueness_score = some u)
    (hsome : ∀ p ∈ cr, (p.2.completeness_score).isSome = true) :
    calculate_data_quality_score cr dr fr kr =
      (let cs := cr.filterMap (fun p => p.2.completeness_score)
       let cAvg : ℚ := if cr.isEmpty then 0 else cs.sum / (cs.length : ℚ)
       let fs := fr.map (fun p => formatScore0 p.2)
       let fAvg : ℚ := if fr.isEmpty then 0 else fs.sum / (fs.length : ℚ)
       let ks := kr.map (fun p => codifScore0 p.2)
       let kAvg : ℚ := if kr.isEmpty then 0 else ks.sum / (ks.length : ℚ)
       let W : ℚ := cAvg * (3 / 10) + u * (25 / 100) + fAvg * (25 / 100) + kAvg * (20 / 100)
       { completeness_score := some (round2 cAvg)
         uniqueness_score := some (round2 u)
         format_score := round2 fAvg
         codification_score := round2 kAvg
         overall_quality_score := some (round2 W)
         quality_level :=
           if 90 ≤ W then "Excellent"
           else if 80 ≤ W then "Good"
           else if 70 ≤ W then "Fair"
           else if 60 ≤ W then "Poor"
           else "Very Poor" }) := by
  have hmapempty : (cr.map (fun p => p.2.completeness_score)).isEmpty = cr.isEmpty := by
    cases cr <;> rfl
  have hfsempty : (fr.map (fun p => formatScore0 p.2)).isEmpty = fr.isEmpty := by
    cases fr <;> rfl
  have hksempty : (kr.map (fun p => codifScore0 p.2)).isEmpty = kr.isEmpty := by
    cases kr <;> rfl
  have havgC : (if (cr.map (fun p => p.2.completeness_score)).isEmpty then some (0 : ℚ)
      else npMeanOpt (cr.map (fun p => p.2.completeness_score))) =
      some (if cr.isEmpty then (0 : ℚ)
        else (cr.filterMap (fun p => p.2.completeness_score)).sum /
          ((cr.filterMap (fun p => p.2.completeness_score)).length : ℚ)) := by
    rw [hmapempty]
    by_cases hcr : cr.isEmpty = true
    · rw [if_pos hcr, if_pos hcr]
    · rw [if_neg hcr, if_neg hcr]
      have hall : (cr.map (fun p => p.2.completeness_score)).all Option.isSome = true := by
        rw [List.all_eq_true]
        intro x hx
        rw [List.mem_map] at hx
        obtain ⟨p, hp, rfl⟩ := hx
        exact hsome p hp
      unfold npMeanOpt
      rw [if_pos hall]
      rw [List.filterMap_map]
      rfl
  unfold calculate_data_quality_score
  dsimp only
  rw [hu, havgC, hfsempty, hksempty]
  rfl

/-- Claim C2, witness: the amended statement instantiated on a one-column
completeness report scoring 50 with uniqueness 100 and no format or
codification reports: the overall score is `0.3·50 + 0.25·100 = 40` and the
tier is `Very Poor`. -/
theorem C2_witness :
    (calculate_data_quality_score [("a", ⟨0, some 0, 1, some 50⟩)]
        ⟨1, 0, some 0, 1, some 100⟩ [] []).overall_quality_score = some 40 ∧
    (calculate_data_quality_score [("a", ⟨0, some 0, 1, some 50⟩)]
        ⟨1, 0, some 0, 1, some 100⟩ [] []).quality_level = "Very Poor" := by
  have h := C2_weighted_score [("a", ⟨0, some 0, 1, some 50⟩)]
      ⟨1, 0, some 0, 1, some 100⟩ [] [] 100 rfl
      (by intro p hp
          rw [List.mem_singleton] at hp
          rw [hp]
          rfl)
  rw [h]
  dsimp only
  constructor
  · simp only [List.filterMap_cons, List.filterMap_nil, List.sum_cons, List.sum_nil,
      List.length_cons, List.length_nil, List.isEmpty_cons]
    norm_num [round2, roundHalfEven]
  · simp only [List.filterMap_cons, List.filterMap_nil, List.sum_cons, List.sum_nil,
      List.length_cons, List.length_nil, List.isEmpty_cons]
    norm_num

/-! ## Claim C3 -/

/-- Claim C3, counterexample: `generate_quality_report` stores
`datetime.now().isoformat()` in the report, so two calls on the same dataset
and source name, made at different clock instants, return different report
structures — the claimed bit-identical two-run equality fails. -/
theorem C3_counterexample :
    generate_quality_report ⟨["A"], [[Val.num 1]]⟩ "src" "2025-10-05T00:00:00" ≠
      generate_quality_report ⟨["A"], [[Val.num 1]]⟩ "src" "2025-10-05T00:00:01" := by
  intro h
  have ht := congrArg QualityReport.timestamp h
  exact absurd ht (by simp [generate_quality_report])

/-- Claim C3 (amended): for every fixed dataset and source name, two calls
of `generate_quality_report` yield reports that agree on every field except
the `timestamp`: scoring contains no randomness, and erasing the timestamp
makes the two runs bit-identical. -/
theorem C3_deterministic_modulo_timestamp (df : DataFrame) (source_name t₁ t₂ : String) :
    stripTimestamp (generate_quality_report df source_name t₁) =
      stripTimestamp (generate_quality_report df source_name t₂) := rfl

/-! ## Claim C4 -/

/-- Claim C4, counterexample: `normalize_codification` converts the column
with `astype(str)` before applying the mapping, so a missing value is not
preserved: on a one-row `CSP` column holding only a missing value, with
mapping `{"cadre": "1"}`, the returned column holds the string `"nan"`,
not a missing value — refuting "missing values still missing". -/
theorem C4_counterexample :
    (normalize_codification ⟨["CSP"], [[Val.missing]]⟩
        [("CSP", [("cadre", "1")])] []).1.rows = [[Val.str "nan"]] ∧
    Val.str "nan" ≠ Val.missing := ⟨rfl, by decide⟩

/-- Claim C4 (amended): after `normalize_codification`, every value of a
configured present column is obtained by first converting the original cell
to its string form (`astype(str)`: numbers to their string form, missing to
`"nan"`) and then replacing it by its mapped value exactly when that string
is a key of the mapping; unconfigured columns are untouched; and a key `k`
that no mapping entry maps *to* no longer appears verbatim in the column. -/
theorem C4_codification_mapping (df : DataFrame) (c : String)
    (m : List (String × String)) (log : List LogEntry)
    (hwf : df.WF) (hc : c ∈ df.cols) :
    ((normalize_codification df [(c, m)] log).1.col c =
      (df.col c).map (fun v => Val.str (applyMap m (valToStr v)))) ∧
    (∀ c' ∈ df.cols, c' ≠ c →
      (normalize_codification df [(c, m)] log).1.col c' = df.col c') ∧
    (∀ k : String, (∃ p ∈ m, p.1 = k) → (∀ p ∈ m, p.2 ≠ k) →
      Val.str k ∉ (normalize_codification df [(c, m)] log).1.col c) := by
  have hsome := idxOf_isSome_of_mem hc
  cases hidx : idxOf c df.cols with
  | none => rw [hidx] at hsome; simp at hsome
  | some i =>
      have hstep : (normalize_codification df [(c, m)] log).1 =
          setCol df c ((df.col c).map (fun v => Val.str (applyMap m (valToStr v)))) := by
        show (codifStep df (c, m)).1 = _
        unfold codifStep
        rw [hidx]
      have hlen : ((df.col c).map (fun v => Val.str (applyMap m (valToStr v)))).length =
          df.rows.length := by
        rw [List.length_map]; exact col_length hc
      have hcol : (normalize_codification df [(c, m)] log).1.col c =
          (df.col c).map (fun v => Val.str (applyMap m (valToStr v))) := by
        rw [hstep]; exact col_setCol_self hwf hc hlen
      refine ⟨hcol, ?_, ?_⟩
      · intro c' hc' hne
        rw [hstep]
        exact col_setCol_other hc' hne hlen
      · intro k hkey hnoim hmem
        rw [hcol] at hmem
        rw [List.mem_map] at hmem
        obtain ⟨v, _, heq⟩ := hmem
        have happ : applyMap m (valToStr v) = k := by
          injection heq
        unfold applyMap at happ
        cases hfind : m.find? (fun q => q.1 = valToStr v) with
        | some p =>
            rw [hfind] at happ
            exact hnoim p (List.mem_of_find?_eq_some hfind) happ
        | none =>
            rw [hfind] at happ
            have happ' : valToStr v = k := happ
            obtain ⟨p, hp, hpk⟩ := hkey
            have := List.find?_eq_none.mp hfind p hp
            rw [hpk, happ'] at this
            simp at this

/-- Claim C4, witness: the amended mapping behaviour on a one-row `CSP`
column holding `"cadre"` with mapping `{"cadre": "1"}`: the value becomes
`"1"` and `"cadre"` no longer appears. -/
theorem C4_witness :
    (normalize_codification ⟨["CSP"], [[Val.str "cadre"]]⟩
        [("CSP", [("cadre", "1")])] []).1.col "CSP" = [Val.str "1"] ∧
    Val.str "cadre" ∉ (normalize_codification ⟨["CSP"], [[Val.str "cadre"]]⟩
        [("CSP", [("cadre", "1")])] []).1.col "CSP" := by
  have h := C4_codification_mapping ⟨["CSP"], [[Val.str "cadre"]]⟩ "CSP"
      [("cadre", "1")] [] (by decide) (by decide)
  constructor
  · rw [h.1]
    decide
  · exact h.2.2 "cadre" ⟨("cadre", "1"), by decide, rfl⟩ (by decide)

/-! ## Claim C5 -/

theorem getD_map_val (f : Val → Val) : ∀ (l : List Val) (i : Nat) (d : Val), i < l.length →
    (l.map f).getD i d = f (l.getD i d)
  | [], _, _, h => by simp at h
  | a :: as, 0, d, _ => rfl
  | a :: as, i + 1, d, h => by
      simp only [List.map_cons, List.getD_cons_succ]
      exact getD_map_val f as i d (by simpa using h)

theorem getD_of_length_le : ∀ (l : List Val) (i : Nat) (d : Val), l.length ≤ i →
    l.getD i d = d
  | [], _, _, _ => by simp
  | a :: as, 0, d, h => by simp at h
  | a :: as, i + 1, d, h => by
      simp only [List.getD_cons_succ]
      exact getD_of_length_le as i d (by simpa using h)

theorem formatStep_col (df : DataFrame) (c : String) (rule : FormatRule)
    (log : List LogEntry) (hwf : df.WF) (hc : c ∈ df.cols) :
    (standardize_format df [(c, rule)] log).1.col c =
      match rule with
      | FormatRule.title_case => (df.col c).map (fun v => Val.str (titleCase (valToStr v)))
      | FormatRule.upper_case => (df.col c).map (fun v => Val.str ((valToStr v).map Char.toUpper))
      | FormatRule.lower_case => (df.col c).map (fun v => Val.str ((valToStr v).map Char.toLower))
      | FormatRule.numeric => (df.col c).map toNumericVal
      | FormatRule.clean_spaces => (df.col c).map (fun v => Val.str ((valToStr v).trim))
      | FormatRule.regexSub f => (df.col c).map (fun v => Val.str (f (valToStr v))) := by
  have hsome := idxOf_isSome_of_mem hc
  cases hidx : idxOf c df.cols with
  | none => rw [hidx] at hsome; simp at hsome
  | some i =>
      cases rule <;>
        · show ((formatStep df (c, _)).1).col c = _
          unfold formatStep
          rw [hidx]
          exact col_setCol_self hwf hc (by rw [List.length_map]; exact col_length hc)

/-- Claim C5, counterexample: the `title_case` rule goes through
`astype(str)`, so a missing value is not left missing: on a one-row column
holding only a missing value the result is the string `"Nan"` (the title
case of `"nan"`), refuting "a value that is missing before the call is
still missing after". -/
theorem C5_counterexample :
    (standardize_format ⟨["A"], [[Val.missing]]⟩ [("A", FormatRule.title_case)] []).1.rows =
      [[Val.str "Nan"]] ∧ Val.str "Nan" ≠ Val.missing := ⟨rfl, by decide⟩

/-- Claim C5 (amended): `standardize_format` applies the string rules
(`title_case`, `upper_case`, `lower_case`, `clean_spaces`, regex) to every
cell of a configured present column after converting it to its string form —
so missing markers become strings (`"nan"` transformed) — while the
`numeric` rule works on the original cells: it preserves missing values and
additionally turns non-parseable values into missing. -/
theorem C5_format_missing_handling (df : DataFrame) (c : String) (log : List LogEntry)
    (hwf : df.WF) (hc : c ∈ df.cols) :
    (∀ rule ∈ [FormatRule.title_case, FormatRule.upper_case, FormatRule.lower_case,
        FormatRule.clean_spaces],
      ∀ v ∈ ((standardize_format df [(c, rule)] log).1).col c, ∃ s, v = Val.str s) ∧
    (∀ f : String → String,
      ∀ v ∈ ((standardize_format df [(c, FormatRule.regexSub f)] log).1).col c,
        ∃ s, v = Val.str s) ∧
    (((standardize_format df [(c, FormatRule.numeric)] log).1).col c =
      (df.col c).map toNumericVal) ∧
    (∀ i : Nat, (df.col c).getD i Val.missing = Val.missing →
      (((standardize_format df [(c, FormatRule.numeric)] log).1).col c).getD i Val.missing =
        Val.missing) ∧
    (∀ (i : Nat) (s : String), (df.col c).getD i Val.missing = Val.str s → parseRat s = none →
      (((standardize_format df [(c, FormatRule.numeric)] log).1).col c).getD i Val.missing =
        Val.missing) := by
  have hnum := formatStep_col df c FormatRule.numeric log hwf hc
  refine ⟨?_, ?_, hnum, ?_, ?_⟩
  · intro rule hrule v hv
    fin_cases hrule <;>
      · rw [formatStep_col df c _ log hwf hc] at hv
        rw [List.mem_map] at hv
        obtain ⟨w, _, heq⟩ := hv
        exact ⟨_, heq.symm⟩
  · intro f v hv
    rw [formatStep_col df c (FormatRule.regexSub f) log hwf hc] at hv
    rw [List.mem_map] at hv
    obtain ⟨w, _, heq⟩ := hv
    exact ⟨_, heq.symm⟩
  · intro i hmiss
    rw [hnum]
    rcases Nat.lt_or_ge i (df.col c).length with hlt | hge
    · rw [getD_map_val toNumericVal (df.col c) i Val.missing hlt, hmiss]
      rfl
    · rw [getD_of_length_le (List.map toNumericVal (df.col c)) i Val.missing
        (by rw [List.length_map]; exact hge)]
  · intro i s hstr hparse
    rw [hnum]
    rcases Nat.lt_or_ge i (df.col c).length with hlt | hge
    · rw [getD_map_val toNumericVal (df.col c) i Val.missing hlt, hstr]
      show (match parseRat s with
        | some q => Val.num q
        | none => Val.missing) = Val.missing
      rw [hparse]
    · rw [getD_of_length_le (df.col c) i Val.missing hge] at hstr
      cases hstr

/-- Claim C5, witness: the amended behaviour instantiated on a two-row
column holding a missing value and the number `2` with the `numeric` rule:
the missing cell stays missing and the number passes through. -/
theorem C5_witness :
    (standardize_format ⟨["A"], [[Val.missing], [Val.num 2]]⟩
        [("A", FormatRule.numeric)] []).1.col "A" = [Val.missing, Val.num 2] := by
  have h := C5_format_missing_handling ⟨["A"], [[Val.missing], [Val.num 2]]⟩ "A" []
      (by decide) (by decide)
  rw [h.2.2.1]
  rfl

/-! ## Claim C6 -/

theorem foldSteps_cons {α : Type} (step : DataFrame → α → DataFrame × List LogEntry)
    (a : α) (as : List α) (df : DataFrame) (log : List LogEntry) :
    foldSteps step (a :: as) (df, log) =
      foldSteps step as ((step df a).1, log ++ (step df a).2) := rfl

/-- Claim C6 (confirmed): when a rule's predicate evaluation fails,
`apply_business_rules` appends one `business_rule_error` log entry naming
that rule and the failure, leaves the dataset untouched by that rule, and
continues with the remaining rules; the overall call is a total function
(the failure never propagates), and the log is only ever extended. -/
theorem C6_rule_error_recovery (df : DataFrame) (log : List LogEntry)
    (r : BusinessRule) (rest : List BusinessRule) (e : String)
    (herr : r.condition df = CheckResult.err e) :
    apply_business_rules df (r :: rest) log =
      apply_business_rules df rest
        (log ++ [⟨"business_rule_error", "Erreur dans la règle " ++ r.name ++ ": " ++ e⟩]) ∧
    (∃ d, (apply_business_rules df (r :: rest) log).2 = log ++ d) := by
  have hstep : businessStep df r =
      (df, [⟨"business_rule_error", "Erreur dans la règle " ++ r.name ++ ": " ++ e⟩]) := by
    unfold businessStep
    rw [herr]
  constructor
  · show foldSteps businessStep (r :: rest) (df, log) =
      foldSteps businessStep rest
        (df, log ++ [⟨"business_rule_error", "Erreur dans la règle " ++ r.name ++ ": " ++ e⟩])
    rw [foldSteps_cons, hstep]
  · show ∃ d, (foldSteps businessStep (r :: rest) (df, log)).2 = log ++ d

    rw [foldSteps_split]
    exact ⟨_, rfl⟩

/-- Claim C6, witness: a single rule whose predicate evaluator fails with
message `msg` on a concrete one-row dataset: the call returns the dataset
unchanged together with one error log entry naming the rule. -/
theorem C6_witness :
    apply_business_rules ⟨["A"], [[Val.str "x"]]⟩
        [⟨"bad_rule", fun _ => CheckResult.err "msg",
          RuleAction.set_value "A" (Val.str "0")⟩] [] =
      (⟨["A"], [[Val.str "x"]]⟩,
       [⟨"business_rule_error", "Erreur dans la règle bad_rule: msg"⟩]) := by
  have h := C6_rule_error_recovery ⟨["A"], [[Val.str "x"]]⟩ []
      ⟨"bad_rule", fun _ => CheckResult.err "msg", RuleAction.set_value "A" (Val.str "0")⟩
      [] "msg" rfl
  rw [h.1]
  rfl

/-! ## Claim C7 -/

/-- Claim C7 (confirmed): with the default `keep='first'`,
`remove_duplicates`' row filtering (`drop_duplicates`) keeps exactly the
first occurrence (in original order) of each key equivalence class
(each survivor is the `find?`-first of its class and every class keeps a
representative), never removes any row when all keys are pairwise distinct,
never reorders surviving rows (the result is a sublist of the input), and is
idempotent on the dataset. -/
theorem C7_remove_duplicates (df : DataFrame) (subset : Option (List String)) :
    drop_duplicates (drop_duplicates df subset) subset = drop_duplicates df subset ∧
    (drop_duplicates df subset).rows.Sublist df.rows ∧
    (df.rows.Pairwise (fun a b => rowKey df subset a ≠ rowKey df subset b) →
      drop_duplicates df subset = df) ∧
    (∀ b ∈ (drop_duplicates df subset).rows,
      df.rows.find? (fun x => decide (rowKey df subset x = rowKey df subset b)) = some b) ∧
    (∀ a ∈ df.rows, ∃ b ∈ (drop_duplicates df subset).rows,
      rowKey df subset b = rowKey df subset a) := by
  refine ⟨?_, ?_, ?_, ?_, ?_⟩
  · show (⟨df.cols, dedupeFirst (rowKey df subset)
        (dedupeFirst (rowKey df subset) df.rows []) []⟩ : DataFrame) =
      ⟨df.cols, dedupeFirst (rowKey df subset) df.rows []⟩
    rw [dedupeFirst_idem]
  · exact dedupeFirst_sublist (rowKey df subset) df.rows []
  · intro hpw
    show (⟨df.cols, dedupeFirst (rowKey df subset) df.rows []⟩ : DataFrame) = df
    rw [dedupeFirst_eq_self (rowKey df subset) df.rows []
      (fun a _ h => absurd h (List.not_mem_nil _)) hpw]
  · intro b hb
    exact (dedupeFirst_find? (rowKey df subset) df.rows [] b hb).2
  · intro a ha
    exact dedupeFirst_covers (rowKey df subset) df.rows [] a ha
      (List.not_mem_nil _)

/-- Claim C7, witness: idempotence on a concrete three-row dataset with one
duplicated row, and the no-duplicates no-op on a concrete dataset with
pairwise distinct rows. -/
theorem C7_witness :
    drop_duplicates (drop_duplicates ⟨["A"], [[Val.str "x"], [Val.str "x"], [Val.str "y"]]⟩
        none) none =
      drop_duplicates ⟨["A"], [[Val.str "x"], [Val.str "x"], [Val.str "y"]]⟩ none ∧
    drop_duplicates ⟨["A"], [[Val.str "x"], [Val.str "y"]]⟩ none =
      ⟨["A"], [[Val.str "x"], [Val.str "y"]]⟩ :=
  ⟨(C7_remove_duplicates ⟨["A"], [[Val.str "x"], [Val.str "x"], [Val.str "y"]]⟩ none).1,
   (C7_remove_duplicates ⟨["A"], [[Val.str "x"], [Val.str "y"]]⟩ none).2.2.1 (by decide)⟩

/-! ## Claim C9 -/

theorem foldSteps_out_df {α : Type} (step : DataFrame → α → DataFrame × List LogEntry)
    (items : List α) (df : DataFrame) (log : List LogEntry) :
    (foldSteps step items (df, log)).1 = (foldSteps step items (df, [])).1 := by
  rw [foldSteps_split]

theorem foldSteps_out_log {α : Type} (step : DataFrame → α → DataFrame × List LogEntry)
    (items : List α) (df : DataFrame) (log : List LogEntry) :
    ∃ d, (foldSteps step items (df, log)).2 = log ++ d := by
  rw [foldSteps_split]
  exact ⟨_, rfl⟩

/-- Claim C9 (confirmed, up to the embedding): each of the five improver
operations is modelled as a pure state-passing function — faithful to the
source, which copies the frame (`df.copy()` / `drop_duplicates`) before
modifying it, so the caller's input dataset is never mutated.  The theorem
states the two facts the embedding can express: the returned dataset depends
only on the input dataset and configuration (not on the improver's
accumulated state), and the only state change is an append to the
improvement log. -/
theorem C9_state_isolation (df : DataFrame) (log : List LogEntry)
    (strategies : List (String × String))
    (format_rules : List (String × FormatRule))
    (codification_rules : List (String × List (String × String)))
    (business_rules : List BusinessRule)
    (subset : Option (List String)) :
    ((improve_completeness df strategies log).1 = (improve_completeness df strategies []).1 ∧
      ∃ d, (improve_completeness df strategies log).2 = log ++ d) ∧
    ((remove_duplicates df subset log).1 = (remove_duplicates df subset []).1 ∧
      ∃ d, (remove_duplicates df subset log).2 = log ++ d) ∧
    ((standardize_format df format_rules log).1 = (standardize_format df format_rules []).1 ∧
      ∃ d, (standardize_format df format_rules log).2 = log ++ d) ∧
    ((normalize_codification df codification_rules log).1 =
        (normalize_codification df codification_rules []).1 ∧
      ∃ d, (normalize_codification df codification_rules log).2 = log ++ d) ∧
    ((apply_business_rules df business_rules log).1 =
        (apply_business_rules df business_rules []).1 ∧
      ∃ d, (apply_business_rules df business_rules log).2 = log ++ d) :=
  ⟨⟨foldSteps_out_df completenessStep strategies df log,
    foldSteps_out_log completenessStep strategies df log⟩,
   ⟨rfl, ⟨_, rfl⟩⟩,
   ⟨foldSteps_out_df formatStep format_rules df log,
    foldSteps_out_log formatStep format_rules df log⟩,
   ⟨foldSteps_out_df codifStep codification_rules df log,
    foldSteps_out_log codifStep codification_rules df log⟩,
   ⟨foldSteps_out_df businessStep business_rules df log,
    foldSteps_out_log businessStep business_rules df log⟩⟩

/-! ## Claim C10 -/

/-- Claim C10 (confirmed): for a present column with missing values whose
strategy tag is none of `mean`, `mode`, `forward_fill` and does not start
with `custom_`, `improve_completeness` leaves the dataset entirely unchanged
(no branch fills anything) yet still appends a `completeness` log entry
claiming the missing values were filled with that strategy. -/
theorem C10_unknown_strategy_logs (df : DataFrame) (c strat : String) (log : List LogEntry)
    (hmean : strat ≠ "mean") (hmode : strat ≠ "mode") (hffill : strat ≠ "forward_fill")
    (hcustom : ¬ strat.startsWith "custom_") (hc : c ∈ df.cols)
    (hmc : 0 < (df.col c).countP isMissing) :
    improve_completeness df [(c, strat)] log =
      (df, log ++ [⟨"completeness",
        "Colonne " ++ c ++ ": " ++ toString ((df.col c).countP isMissing) ++
          " valeurs manquantes comblées avec stratégie " ++ sQ ++ strat ++ sQ⟩]) := by
  have hsome := idxOf_isSome_of_mem hc
  cases hidx : idxOf c df.cols with
  | none => rw [hidx] at hsome; simp at hsome
  | some i =>
      have hstep : completenessStep df (c, strat) =
          (df, [⟨"completeness",
            "Colonne " ++ c ++ ": " ++ toString ((df.col c).countP isMissing) ++
              " valeurs manquantes comblées avec stratégie " ++ sQ ++ strat ++ sQ⟩]) := by
        unfold completenessStep
        dsimp only
        rw [hidx]
        dsimp only
        rw [if_neg (Nat.pos_iff_ne_zero.mp hmc), if_neg hmean, if_neg hmode,
          if_neg hffill, if_neg hcustom]
      rw [show improve_completeness df [(c, strat)] log =
        foldSteps completenessStep [(c, strat)] (df, log) from rfl]
      rw [foldSteps_cons, hstep]
      rfl

/-- Claim C10, witness: strategy tag `median` on a one-row column holding a
missing value: the dataset is returned unchanged but a `completeness` entry
claiming one filled value is appended. -/
theorem C10_witness :
    improve_completeness ⟨["B"], [[Val.missing]]⟩ [("B", "median")] [] =
      (⟨["B"], [[Val.missing]]⟩,
       [⟨"completeness",
         "Colonne " ++ "B" ++ ": " ++ toString 1 ++
           " valeurs manquantes comblées avec stratégie " ++ sQ ++ "median" ++ sQ⟩]) := by
  have h := C10_unknown_strategy_logs ⟨["B"], [[Val.missing]]⟩ "B" "median" []
      (by decide) (by decide) (by decide) (by decide) (by decide) (by decide)
  rw [h]
  rfl

/-! ## Claim C8 -/

theorem scenarioA_codif_eval :
    check_codification_consistency dfScenarioA "CSP" (some ["1", "2", "3", "4"]) =
      CheckResult.ok
        ⟨9, 7, 6, 3, [Val.str "cadre", Val.str "9", Val.str "employe"], 6667 / 100⟩ := by
  unfold check_codification_consistency
  rw [if_pos (show "CSP" ∈ dfScenarioA.cols by decide)]
  rw [if_neg (show ¬ ((dfScenarioA.col "CSP").filter (fun v => !isMissing v)).isEmpty = true
    by decide)]
  dsimp only
  rw [show ((dfScenarioA.col "CSP").filter (fun v => !isMissing v)).countP
      (isinCodes ["1", "2", "3", "4"]) = 6 from by decide]
  rw [show ((dfScenarioA.col "CSP").filter (fun v => !isMissing v)).length = 9 from by decide]
  rw [show (dedupeFirst id ((dfScenarioA.col "CSP").filter (fun v => !isMissing v)) []) =
      [Val.str "1", Val.str "2", Val.str "cadre", Val.str "9", Val.str "3", Val.str "4",
        Val.str "employe"] from by decide]
  norm_num [round2, roundHalfEven]
  decide

/-- Claim C8, counterexample: on the scenario-A dataset the missing value is
indeed excluded from the denominator, but `isin` counts valid values per
occurrence, so 6 of the 9 non-missing values (`1,2,1,2,3,4`) are valid, not
4: the returned codification_score is `66.67`, not `100×4/9 ≈ 44.44`. -/
theorem C8_counterexample :
    check_codification_consistency dfScenarioA "CSP" (some ["1", "2", "3", "4"]) =
      CheckResult.ok
        ⟨9, 7, 6, 3, [Val.str "cadre", Val.str "9", Val.str "employe"], 6667 / 100⟩ ∧
    (6667 / 100 : ℚ) ≠ round2 (100 * 4 / 9) ∧ (6667 / 100 : ℚ) ≠ 100 * 4 / 9 :=
  ⟨scenarioA_codif_eval, by norm_num [round2, roundHalfEven], by norm_num⟩

/-- Claim C8 (amended): on the concrete 10-row scenario-A dataset,
`check_codification_consistency` with valid codes `{"1","2","3","4"}`
excludes the one missing value from the denominator and returns
`codification_score = round2(100×6/9) = 66.67` (valid values counted per
occurrence: 6 of the 9 non-missing values are valid), with `"cadre"`, `"9"`
and `"employe"` reported as the invalid values, 9 total values, 7 distinct
values, 6 valid and 3 invalid. -/
theorem C8_scenario_A :
    check_codification_consistency dfScenarioA "CSP" (some ["1", "2", "3", "4"]) =
      CheckResult.ok
        ⟨9, 7, 6, 3, [Val.str "cadre", Val.str "9", Val.str "employe"],
         round2 ((6 : ℚ) / 9 * 100)⟩ := by
  rw [scenarioA_codif_eval]
  norm_num [round2, roundHalfEven]
